import Mathlib

/-!
Verification development for `src/vacuum.c`, a scrub-and-defrag utility for
SQLite database files.  The C source is shallowly embedded: machine integers
become `Nat` with explicit `% 2^32` where u32 overflow matters, byte buffers
become `List Nat` (entries are bytes `0..255` in every real page), fallible
page reads become `Option`, and the shared `ScrubDefragState` struct becomes
an explicit state record threaded through every operation.  C shifts and
masks on unsigned values are written as the equal division/modulus
expressions (`x >> 8` as `x / 256`, `x & 0xff` as `x % 256`,
`x & 0x7f` as `x % 128`; `(x & 0x80) == 0` as `x % 256 < 128`).
-/

/-! ## List helpers (pointwise reasoning about `List.set` and `memset`) -/

theorem sdGetD_set_ne : ∀ (a : List Nat) (i j v : Nat), i ≠ j →
    (a.set i v).getD j 0 = a.getD j 0
  | [], _, _, _, _ => rfl
  | _ :: _, 0, 0, _, h => absurd rfl h
  | _ :: _, 0, _ + 1, _, _ => rfl
  | _ :: _, _ + 1, 0, _, _ => rfl
  | _ :: bs, i + 1, j + 1, v, h => sdGetD_set_ne bs i j v (fun e => h (by omega))

theorem sdGetD_set_self : ∀ (a : List Nat) (j v : Nat), j < a.length →
    (a.set j v).getD j 0 = v
  | [], _, _, h => absurd h (by simp)
  | _ :: _, 0, _, _ => rfl
  | _ :: bs, j + 1, v, h => sdGetD_set_self bs j v (by simp at h; omega)

/-- Model of `memset(&a[lo], 0, n)`, clipped to the buffer length (all uses in
the source are bounds-checked before the call). -/
def sdZeroRange : List Nat → Nat → Nat → List Nat
  | [], _, _ => []
  | _ :: bs, 0, n + 1 => 0 :: sdZeroRange bs 0 n
  | b :: bs, 0, 0 => b :: bs
  | b :: bs, lo + 1, n => b :: sdZeroRange bs lo n

theorem sdZeroRange_length : ∀ (a : List Nat) (lo n : Nat),
    (sdZeroRange a lo n).length = a.length
  | [], _, _ => rfl
  | _ :: _, 0, 0 => rfl
  | _ :: bs, 0, n + 1 => by simp [sdZeroRange, sdZeroRange_length bs 0 n]
  | _ :: bs, lo + 1, n => by simp [sdZeroRange, sdZeroRange_length bs lo n]

theorem sdZeroRange_getD : ∀ (a : List Nat) (lo n j : Nat),
    (sdZeroRange a lo n).getD j 0 =
      if lo ≤ j ∧ j < lo + n ∧ j < a.length then 0 else a.getD j 0
  | [], lo, n, j => by simp [sdZeroRange]
  | b :: bs, 0, 0, j => by
      simp only [sdZeroRange]
      rw [if_neg (by omega)]
  | b :: bs, 0, n + 1, 0 => by
      simp only [sdZeroRange, List.getD_cons_zero, List.length_cons]
      rw [if_pos (by omega)]
  | b :: bs, 0, n + 1, j + 1 => by
      simp only [sdZeroRange, List.getD_cons_succ, List.length_cons]
      rw [sdZeroRange_getD bs 0 n j]
      exact if_congr (by omega) rfl rfl
  | b :: bs, lo + 1, n, 0 => by
      simp only [sdZeroRange, List.getD_cons_zero]
      rw [if_neg (by omega)]
  | b :: bs, lo + 1, n, j + 1 => by
      simp only [sdZeroRange, List.getD_cons_succ, List.length_cons]
      rw [sdZeroRange_getD bs lo n j]
      exact if_congr (by omega) rfl rfl

/-! ## Fixed-width big-endian integers (`src/vacuum.c` lines 289-308) -/

/-- `scrubDefragInt32` (lines 290-296): read a 32-bit big-endian integer at
offset `off` of buffer `a`. -/
def scrubDefragInt32 (a : List Nat) (off : Nat) : Nat :=
  a.getD (off + 3) 0 + a.getD (off + 2) 0 * 256 + a.getD (off + 1) 0 * 65536 +
    a.getD off 0 * 16777216

/-- `scrubDefragWriteInt32` (lines 298-303): store `v` as 4 big-endian bytes at
offset `off` (`(v >> 24) & 0xff` is `v / 16777216 % 256`, and so on). -/
def scrubDefragWriteInt32 (a : List Nat) (off v : Nat) : List Nat :=
  (((a.set off (v / 16777216 % 256)).set (off + 1) (v / 65536 % 256)).set
      (off + 2) (v / 256 % 256)).set (off + 3) (v % 256)

/-- `scrubDefragInt16` (lines 306-308): read a 16-bit big-endian integer. -/
def scrubDefragInt16 (a : List Nat) (off : Nat) : Nat :=
  a.getD off 0 * 256 + a.getD (off + 1) 0

theorem sdWriteInt32_length (a : List Nat) (off v : Nat) :
    (scrubDefragWriteInt32 a off v).length = a.length := by
  simp [scrubDefragWriteInt32]

theorem sdWriteInt32_getD_outside (a : List Nat) (off v j : Nat)
    (h : j < off ∨ off + 4 ≤ j) :
    (scrubDefragWriteInt32 a off v).getD j 0 = a.getD j 0 := by
  unfold scrubDefragWriteInt32
  rw [sdGetD_set_ne _ _ _ _ (by omega), sdGetD_set_ne _ _ _ _ (by omega),
    sdGetD_set_ne _ _ _ _ (by omega), sdGetD_set_ne _ _ _ _ (by omega)]

theorem sdInt32_writeInt32_outside (a : List Nat) (woff v off : Nat)
    (h : off + 4 ≤ woff ∨ woff + 4 ≤ off) :
    scrubDefragInt32 (scrubDefragWriteInt32 a woff v) off = scrubDefragInt32 a off := by
  unfold scrubDefragInt32
  rw [sdWriteInt32_getD_outside a woff v (off + 3) (by omega),
    sdWriteInt32_getD_outside a woff v (off + 2) (by omega),
    sdWriteInt32_getD_outside a woff v (off + 1) (by omega),
    sdWriteInt32_getD_outside a woff v off (by omega)]

theorem sdInt32_writeInt32 (a : List Nat) (off v : Nat) (h : off + 4 ≤ a.length) :
    scrubDefragInt32 (scrubDefragWriteInt32 a off v) off = v % 4294967296 := by
  have h3 : off + 3 < a.length := by omega
  have h2 : off + 2 < a.length := by omega
  have h1 : off + 1 < a.length := by omega
  have h0 : off < a.length := by omega
  unfold scrubDefragInt32 scrubDefragWriteInt32
  rw [sdGetD_set_self _ _ _ (by simp; omega)]
  rw [sdGetD_set_ne _ _ _ _ (by omega), sdGetD_set_self _ _ _ (by simp; omega)]
  rw [sdGetD_set_ne _ _ _ _ (by omega), sdGetD_set_ne _ _ _ _ (by omega),
    sdGetD_set_self _ _ _ (by simp; omega)]
  rw [sdGetD_set_ne _ _ _ _ (by omega), sdGetD_set_ne _ _ _ _ (by omega),
    sdGetD_set_ne _ _ _ _ (by omega), sdGetD_set_self _ _ _ h0]
  omega

/-! ## The lock page and the destination page-number allocator
(`src/vacuum.c` lines 87-90 and 512) -/

/-- Line 512: `s.iLock = (1073742335/s.szPage)+1` (u32 division truncates). -/
def scrubDefragLockPgno (szPage : Nat) : Nat := 1073742335 / szPage + 1

/-- The counter step of `scrubDefragIncDestPageNo` (lines 87-90):
`p->iDestPageNo++; if(p->iDestPageNo == p->iLock) p->iDestPageNo++;`
(u32 increments, hence the `% 2^32`). -/
def scrubDefragAllocNext (iLock v : Nat) : Nat :=
  let v1 := (v + 1) % 4294967296
  if v1 = iLock then (v1 + 1) % 4294967296 else v1

/-- The sequence of values handed out by the allocator: `iDestPageNo` starts
at 1 (line 505) and each allocation observes the counter then advances it, so
allocation `n` observes `scrubDefragAllocSeq iLock n`. -/
def scrubDefragAllocSeq (iLock : Nat) : Nat → Nat
  | 0 => 1
  | n + 1 => scrubDefragAllocNext iLock (scrubDefragAllocSeq iLock n)

theorem sdAllocSeq_le (iLock : Nat) : ∀ n, scrubDefragAllocSeq iLock n ≤ 2 * n + 2
  | 0 => by simp [scrubDefragAllocSeq]
  | n + 1 => by
      have ih := sdAllocSeq_le iLock n
      have h1 : (scrubDefragAllocSeq iLock n + 1) % 4294967296 ≤
          scrubDefragAllocSeq iLock n + 1 := Nat.mod_le _ _
      simp only [scrubDefragAllocSeq, scrubDefragAllocNext]
      split
      · exact le_trans (Nat.mod_le _ _) (by omega)
      · omega

/-- Claim C8: starting from its initial value 1, the destination page-number
allocator yields, across any sequence of allocations within a run, a strictly
increasing sequence of page numbers in which no value ever equals the reserved
lock page number `iLock = 1073742335 / szPage + 1`; the first allocation is
page number 1.  (Hypotheses: a legal page size `512 ≤ szPage ≤ 65536`, and a
no-u32-wrap bound on the number of allocations considered.) -/
theorem scrubDefrag_c8_allocator (szPage n : Nat) (h1 : 512 ≤ szPage)
    (h2 : szPage ≤ 65536) (h3 : 2 * n + 4 < 4294967296) :
    scrubDefragAllocSeq (scrubDefragLockPgno szPage) 0 = 1 ∧
    scrubDefragAllocSeq (scrubDefragLockPgno szPage) n <
      scrubDefragAllocSeq (scrubDefragLockPgno szPage) (n + 1) ∧
    scrubDefragAllocSeq (scrubDefragLockPgno szPage) n ≠ scrubDefragLockPgno szPage := by
  have hlo : 16385 ≤ scrubDefragLockPgno szPage := by
    have : 16384 ≤ 1073742335 / szPage := by
      rw [Nat.le_div_iff_mul_le (by omega)]
      nlinarith
    unfold scrubDefragLockPgno
    omega
  have hhi : scrubDefragLockPgno szPage ≤ 2097154 := by
    have : 1073742335 / szPage ≤ 1073742335 / 512 := Nat.div_le_div_left h1 (by omega)
    unfold scrubDefragLockPgno
    omega
  have hb := sdAllocSeq_le (scrubDefragLockPgno szPage) n
  set iL := scrubDefragLockPgno szPage
  set v := scrubDefragAllocSeq iL n with hv
  have hmod1 : (v + 1) % 4294967296 = v + 1 := Nat.mod_eq_of_lt (by omega)
  have hne : v ≠ iL := by
    cases n with
    | zero =>
        simp only [scrubDefragAllocSeq] at hv
        omega
    | succ m =>
        have hstep : scrubDefragAllocSeq iL (m + 1) =
            scrubDefragAllocNext iL (scrubDefragAllocSeq iL m) := rfl
        rw [hstep] at hv
        simp only [scrubDefragAllocNext] at hv
        split at hv
        · rename_i hil
          rw [hil, Nat.mod_eq_of_lt (by omega)] at hv
          omega
        · rename_i hil
          exact fun hEq => hil (hv.symm.trans hEq)
  refine ⟨rfl, ?_, hne⟩
  have hstep : scrubDefragAllocSeq iL (n + 1) = scrubDefragAllocNext iL v := rfl
  rw [hstep]
  simp only [scrubDefragAllocNext]
  rw [hmod1]
  split
  · rw [Nat.mod_eq_of_lt (by omega)]; omega
  · omega

/-- Witness for C8 at a concrete legal page size and allocation index. -/
theorem scrubDefrag_c8_allocator_witness :
    scrubDefragAllocSeq (scrubDefragLockPgno 4096) 0 = 1 ∧
    scrubDefragAllocSeq (scrubDefragLockPgno 4096) 3 <
      scrubDefragAllocSeq (scrubDefragLockPgno 4096) 4 ∧
    scrubDefragAllocSeq (scrubDefragLockPgno 4096) 3 ≠ scrubDefragLockPgno 4096 :=
  scrubDefrag_c8_allocator 4096 3 (by decide) (by decide) (by decide)

/-! ## HeaderFixer (`src/vacuum.c` lines 517-527) -/

/-- Lines 517-527 of `sqlite3_scrub_and_defrag`: compute the destination page
count and patch the four header fields of the in-memory page 1.
`nSrcPage - nFreePage` and the conditional `- 1` are u32 subtractions; every
run has `0 < nFreePage < nSrcPage < 2^32` so they never wrap, and the
theorems below carry those bounds. -/
def scrubDefragHeaderFix (nSrcPage nFreePage iLock : Nat) (page1 : List Nat) :
    Nat × List Nat :=
  let nDestPage := nSrcPage - nFreePage
  let nDestPage := if nSrcPage ≥ iLock ∧ nDestPage < iLock then nDestPage - 1
    else nDestPage
  let a := scrubDefragWriteInt32 page1 28 nDestPage
  let a := scrubDefragWriteInt32 a 32 0
  let a := scrubDefragWriteInt32 a 36 0
  let a := scrubDefragWriteInt32 a 52 0
  (nDestPage, a)

/-- Claim C2: the destination page count stored as a big-endian u32 at page-1
offset 28 equals the source page count minus the source freelist page count,
reduced by exactly one more if and only if the source crossed the lock page
(`iLock ≤ nSrcPage`) while the dense destination does not
(`nSrcPage - nFreePage < iLock`). -/
theorem scrubDefrag_c2_destPageCount (nSrcPage nFreePage iLock : Nat)
    (page1 : List Nat) (hlen : 56 ≤ page1.length) (hfree : nFreePage < nSrcPage)
    (hsz : nSrcPage < 4294967296) :
    scrubDefragInt32 (scrubDefragHeaderFix nSrcPage nFreePage iLock page1).2 28 =
      nSrcPage - nFreePage -
        (if iLock ≤ nSrcPage ∧ nSrcPage - nFreePage < iLock then 1 else 0) := by
  unfold scrubDefragHeaderFix
  simp only
  rw [sdInt32_writeInt32_outside _ 52 0 28 (by omega),
    sdInt32_writeInt32_outside _ 36 0 28 (by omega),
    sdInt32_writeInt32_outside _ 32 0 28 (by omega),
    sdInt32_writeInt32 page1 28 _ (by omega)]
  split <;> omega

/-- Witness for C2 at concrete counts (a source that crossed the lock page of
a 65536-byte page size while its dense destination does not). -/
theorem scrubDefrag_c2_destPageCount_witness :
    scrubDefragInt32
        (scrubDefragHeaderFix 16390 10 16385 (List.replicate 100 7)).2 28 =
      16390 - 10 - (if 16385 ≤ 16390 ∧ 16390 - 10 < 16385 then 1 else 0) :=
  scrubDefrag_c2_destPageCount 16390 10 16385 (List.replicate 100 7)
    (by simp) (by decide) (by decide)

/-- Claim C9: a run of the header fixer modifies exactly four fields of the
in-memory page 1 - the big-endian u32 at offset 28 (set to the destination
page count) and the big-endian u32s at offsets 32, 36 and 52 (set to zero) -
and every other byte of page 1 is left unchanged. -/
theorem scrubDefrag_c9_headerFrame (nSrcPage nFreePage iLock : Nat)
    (page1 : List Nat) (hlen : 56 ≤ page1.length) :
    scrubDefragInt32 (scrubDefragHeaderFix nSrcPage nFreePage iLock page1).2 28 =
      (scrubDefragHeaderFix nSrcPage nFreePage iLock page1).1 % 4294967296 ∧
    scrubDefragInt32 (scrubDefragHeaderFix nSrcPage nFreePage iLock page1).2 32 = 0 ∧
    scrubDefragInt32 (scrubDefragHeaderFix nSrcPage nFreePage iLock page1).2 36 = 0 ∧
    scrubDefragInt32 (scrubDefragHeaderFix nSrcPage nFreePage iLock page1).2 52 = 0 ∧
    (scrubDefragHeaderFix nSrcPage nFreePage iLock page1).2.length = page1.length ∧
    ∀ j, j < page1.length → (j < 28 ∨ (40 ≤ j ∧ j < 52) ∨ 56 ≤ j) →
      (scrubDefragHeaderFix nSrcPage nFreePage iLock page1).2.getD j 0 =
        page1.getD j 0 := by
  unfold scrubDefragHeaderFix
  simp only
  set nD := if nSrcPage ≥ iLock ∧ nSrcPage - nFreePage < iLock
    then nSrcPage - nFreePage - 1 else nSrcPage - nFreePage with hnD
  have l1 : (scrubDefragWriteInt32 page1 28 nD).length = page1.length :=
    sdWriteInt32_length _ _ _
  have l2 : (scrubDefragWriteInt32 (scrubDefragWriteInt32 page1 28 nD) 32 0).length
      = page1.length := by rw [sdWriteInt32_length, l1]
  have l3 : (scrubDefragWriteInt32 (scrubDefragWriteInt32
      (scrubDefragWriteInt32 page1 28 nD) 32 0) 36 0).length = page1.length := by
    rw [sdWriteInt32_length, l2]
  refine ⟨?_, ?_, ?_, ?_, ?_, ?_⟩
  · rw [sdInt32_writeInt32_outside _ 52 0 28 (by omega),
      sdInt32_writeInt32_outside _ 36 0 28 (by omega),
      sdInt32_writeInt32_outside _ 32 0 28 (by omega),
      sdInt32_writeInt32 page1 28 nD (by omega)]
  · rw [sdInt32_writeInt32_outside _ 52 0 32 (by omega),
      sdInt32_writeInt32_outside _ 36 0 32 (by omega),
      sdInt32_writeInt32 _ 32 0 (by rw [l1]; omega)]
  · rw [sdInt32_writeInt32_outside _ 52 0 36 (by omega),
      sdInt32_writeInt32 _ 36 0 (by rw [l2]; omega)]
  · rw [sdInt32_writeInt32 _ 52 0 (by rw [l3]; omega)]
  · rw [sdWriteInt32_length, l3]
  · intro j hj hside
    rw [sdWriteInt32_getD_outside _ 52 0 j (by omega),
      sdWriteInt32_getD_outside _ 36 0 j (by omega),
      sdWriteInt32_getD_outside _ 32 0 j (by omega),
      sdWriteInt32_getD_outside _ 28 nD j (by omega)]

/-- Witness for C9 at a concrete page-1 buffer. -/
theorem scrubDefrag_c9_headerFrame_witness :
    scrubDefragInt32 (scrubDefragHeaderFix 20 3 1000 (List.replicate 100 7)).2 28 =
      (scrubDefragHeaderFix 20 3 1000 (List.replicate 100 7)).1 % 4294967296 ∧
    scrubDefragInt32 (scrubDefragHeaderFix 20 3 1000 (List.replicate 100 7)).2 32 = 0 ∧
    scrubDefragInt32 (scrubDefragHeaderFix 20 3 1000 (List.replicate 100 7)).2 36 = 0 ∧
    scrubDefragInt32 (scrubDefragHeaderFix 20 3 1000 (List.replicate 100 7)).2 52 = 0 ∧
    (scrubDefragHeaderFix 20 3 1000 (List.replicate 100 7)).2.length =
      (List.replicate 100 7).length ∧
    ∀ j, j < (List.replicate (100:Nat) (7:Nat)).length →
      (j < 28 ∨ (40 ≤ j ∧ j < 52) ∨ 56 ≤ j) →
      (scrubDefragHeaderFix 20 3 1000 (List.replicate 100 7)).2.getD j 0 =
        (List.replicate (100:Nat) (7:Nat)).getD j 0 :=
  scrubDefrag_c9_headerFrame 20 3 1000 (List.replicate 100 7) (by simp)

/-! ## VarintCodec (`src/vacuum.c` lines 310-334) -/

/-- The loop of `scrubDefragVarint` (lines 313-323).  `left` counts the
remaining iterations of `for(i=0; i<8; i++)`; at `left = 0` (so `i = 8`) the
ninth byte contributes all 8 bits: `v = (v<<8) + (z[i]&0xff)` and the result
length is 9 (`i + 1` with `i = 8`). -/
def scrubDefragVarintAux (z : List Nat) (off : Nat) : Nat → Nat → Nat → Nat × Nat
  | 0, i, v => (v * 256 + z.getD (off + i) 0 % 256, i + 1)
  | left + 1, i, v =>
      let b := z.getD (off + i) 0
      if b % 256 < 128 then (v * 128 + b % 128, i + 1)
      else scrubDefragVarintAux z off left (i + 1) (v * 128 + b % 128)

/-- `scrubDefragVarint` (lines 313-323): decode a varint at offset `off`,
returning `(value, byte length)`.  The C accumulator is a signed 64-bit
integer; the value is modelled as an unbounded `Nat` (identical for every
varint whose value fits in 62 bits - larger ones overflow the C `i64`). -/
def scrubDefragVarint (z : List Nat) (off : Nat) : Nat × Nat :=
  scrubDefragVarintAux z off 8 0 0

/-- The loop of `scrubDefragVarintSize` (lines 328-334), same shape as
`scrubDefragVarintAux` but inspecting continuation bits only. -/
def scrubDefragVarintSizeAux (z : List Nat) (off : Nat) : Nat → Nat → Nat
  | 0, _ => 9
  | left + 1, i =>
      if z.getD (off + i) 0 % 256 < 128 then i + 1
      else scrubDefragVarintSizeAux z off left (i + 1)

/-- `scrubDefragVarintSize` (lines 328-334): the byte length of the varint at
offset `off`. -/
def scrubDefragVarintSize (z : List Nat) (off : Nat) : Nat :=
  scrubDefragVarintSizeAux z off 8 0

theorem sdVarintAux_agree (z : List Nat) (off : Nat) : ∀ left i v,
    i + left = 8 →
    (scrubDefragVarintAux z off left i v).2 = scrubDefragVarintSizeAux z off left i ∧
    i < (scrubDefragVarintAux z off left i v).2 ∧
    (scrubDefragVarintAux z off left i v).2 ≤ 9
  | 0, i, v, h => by
      simp only [scrubDefragVarintAux, scrubDefragVarintSizeAux]
      omega
  | left + 1, i, v, h => by
      simp only [scrubDefragVarintAux, scrubDefragVarintSizeAux]
      split
      · exact ⟨rfl, Nat.lt_succ_self i, by omega⟩
      · have ih := sdVarintAux_agree z off left (i + 1)
          (v * 128 + z.getD (off + i) 0 % 128) (by omega)
        exact ⟨ih.1, by omega, ih.2.2⟩

/-- Claim C10: for every byte sequence of length at least 9,
`scrubDefragVarintSize` returns exactly the byte length that
`scrubDefragVarint` returns for the same input, and both results lie
between 1 and 9. -/
theorem scrubDefrag_c10_varintAgree (z : List Nat) (h : 9 ≤ z.length) :
    (scrubDefragVarint z 0).2 = scrubDefragVarintSize z 0 ∧
    1 ≤ (scrubDefragVarint z 0).2 ∧ (scrubDefragVarint z 0).2 ≤ 9 ∧
    1 ≤ scrubDefragVarintSize z 0 ∧ scrubDefragVarintSize z 0 ≤ 9 := by
  have ha := sdVarintAux_agree z 0 8 0 0 (by omega)
  unfold scrubDefragVarint scrubDefragVarintSize
  refine ⟨ha.1, by omega, ha.2.2, ?_, ?_⟩
  · rw [← ha.1]; omega
  · rw [← ha.1]; exact ha.2.2

/-- Witness for C10 at a concrete 9-byte input. -/
theorem scrubDefrag_c10_varintAgree_witness :
    (scrubDefragVarint (List.replicate 9 200) 0).2 =
      scrubDefragVarintSize (List.replicate 9 200) 0 ∧
    1 ≤ (scrubDefragVarint (List.replicate 9 200) 0).2 ∧
    (scrubDefragVarint (List.replicate 9 200) 0).2 ≤ 9 ∧
    1 ≤ scrubDefragVarintSize (List.replicate 9 200) 0 ∧
    scrubDefragVarintSize (List.replicate 9 200) 0 ≤ 9 :=
  scrubDefrag_c10_varintAgree (List.replicate 9 200) (by simp)

/-! ## SchemaRelocator root ordering (`src/vacuum.c` lines 533-537)

The relocation loop walks the result of

`SELECT rootpage,name,type FROM sqlite_master WHERE coalesce(rootpage,0)>0`
`ORDER BY CASE type WHEN 'table' THEN 2 WHEN 'index' THEN 1 ELSE 0 END, rootpage`

A catalog row is `(rootpage, name, type)` with a NULL rootpage modelled as 0. -/

structure SchemaRow where
  rootpage : Nat
  name : String
  kindOf : String

/-- The `CASE type WHEN 'table' THEN 2 WHEN 'index' THEN 1 ELSE 0 END`
sort key of lines 535-537. -/
def scrubDefragTypeKey (t : String) : Nat :=
  if t = "table" then 2 else if t = "index" then 1 else 0

/-- The ORDER BY relation: primary key `scrubDefragTypeKey type` ascending,
secondary key `rootpage` ascending. -/
def scrubDefragRowLE (r1 r2 : SchemaRow) : Prop :=
  scrubDefragTypeKey r1.kindOf < scrubDefragTypeKey r2.kindOf ∨
    (scrubDefragTypeKey r1.kindOf = scrubDefragTypeKey r2.kindOf ∧
      r1.rootpage ≤ r2.rootpage)

instance : DecidableRel scrubDefragRowLE := fun a b => by
  unfold scrubDefragRowLE; infer_instance

instance : IsTotal SchemaRow scrubDefragRowLE :=
  ⟨fun a b => by unfold scrubDefragRowLE; omega⟩

instance : IsTrans SchemaRow scrubDefragRowLE :=
  ⟨fun a b c h1 h2 => by unfold scrubDefragRowLE at h1 h2 ⊢; omega⟩

/-- The rows the relocation loop of lines 539-549 visits, in visit order:
the catalog rows with `rootpage > 0`, sorted by the ORDER BY of
lines 535-537. -/
def scrubDefragMasterQuery (rows : List SchemaRow) : List SchemaRow :=
  List.insertionSort scrubDefragRowLE (rows.filter (fun r => 0 < r.rootpage))

/-- Claim C6 counterexample: a catalog holding a `view` row with
`rootpage = 5` and an `index` row with `rootpage = 3` is visited with the
view FIRST, because the CASE maps types other than table/index to 0, below
index (1) and table (2).  The claim "indexes first, then tables, then other
kinds" is false for this input: the first visited row is not the index. -/
theorem scrubDefrag_c6_counterexample :
    (scrubDefragMasterQuery
        [⟨5, "v", "view"⟩, ⟨3, "i", "index"⟩]).map SchemaRow.kindOf =
      ["view", "index"] ∧
    (scrubDefragMasterQuery
        [⟨5, "v", "view"⟩, ⟨3, "i", "index"⟩]).map SchemaRow.kindOf ≠
      ["index", "view"] := by
  constructor
  · rfl
  · decide

/-- Claim C6 (amended): the schema-catalog rows with `rootpage > 0` are
relocated with OTHER kinds first (CASE key 0), then indexes (key 1), then
tables (key 2), with `rootpage` ascending within each group: the visited
rows are exactly the filtered rows sorted by `scrubDefragRowLE`, whose
primary key maps `index` to 1, `table` to 2, and the other kinds
(for example `view`) to 0. -/
theorem scrubDefrag_c6_amended (rows : List SchemaRow) :
    List.Sorted scrubDefragRowLE (scrubDefragMasterQuery rows) ∧
    (scrubDefragMasterQuery rows).Perm (rows.filter (fun r => 0 < r.rootpage)) ∧
    scrubDefragTypeKey "index" = 1 ∧ scrubDefragTypeKey "table" = 2 ∧
    scrubDefragTypeKey "view" = 0 ∧ scrubDefragTypeKey "trigger" = 0 :=
  ⟨List.sorted_insertionSort scrubDefragRowLE _,
    List.perm_insertionSort scrubDefragRowLE _, rfl, rfl, by decide, by decide⟩

/-! ## The scrub-and-defrag state (`struct ScrubDefragState`, lines 67-85)

Modelling choices, each noted where it matters:
* `src` is the source file: page number to page content, `none` meaning the
  read fails (`xRead` returning an error);
* `destLog` is the log of `xWrite` calls on the destination file, most
  recent first (`xWrite` itself is modelled as always succeeding);
* `sqlite3_malloc` is modelled as always succeeding (OOM paths untouched);
* error messages keep the exact format strings of the source with `%d`
  instantiated; the file names interpolated into one message are dropped;
* the buffer of page 1 is aliased by the rewriter in C; the model threads the
  buffer locally and stores it back into `page1` on exit, which is exact for
  every database whose page graph does not revisit page 1 mid-walk. -/

structure SDState where
  rcErr : Nat
  zErr : String
  szPage : Nat
  szUsable : Nat
  nDestPage : Nat
  iDestPageNo : Nat
  iLock : Nat
  src : Nat → Option (List Nat)
  page1 : List Nat
  destLog : List (Nat × List Nat)

/-- `scrubDefragIncDestPageNo` (lines 87-90).  Note: it does NOT consult
`rcErr`. -/
def scrubDefragIncDestPageNo (p : SDState) : SDState :=
  { p with iDestPageNo := scrubDefragAllocNext p.iLock p.iDestPageNo }

/-- `scrubDefragErr` (lines 92-99): `sqlite3_free(p->zErr)` followed by
`p->zErr = sqlite3_vmprintf(...)` - the message is REPLACED unconditionally -
then `if( p->rcErr==0 ) p->rcErr = SQLITE_ERROR` (= 1). -/
def scrubDefragErr (p : SDState) (msg : String) : SDState :=
  { p with zErr := msg, rcErr := if p.rcErr = 0 then 1 else p.rcErr }

/-- `scrubDefragRead` (lines 110-131): returns the page content, or `none`
after recording `IOERR` (= 10) when the read fails; returns `none` with no
side effect when an error is already recorded. -/
def scrubDefragRead (p : SDState) (pgno : Nat) : Option (List Nat) × SDState :=
  if p.rcErr ≠ 0 then (none, p)
  else
    match p.src pgno with
    | some pg => (some pg, p)
    | none =>
        let p1 := scrubDefragErr p ("read failed for page " ++ toString pgno)
        (none, { p1 with rcErr := 10 })

/-- `scrubDefragWrite` (lines 133-151): no-op when an error is recorded;
records `SQLITE_CORRUPT` (= 11) when `pgno > nDestPage`; otherwise appends
the write to the destination log.  (The interpolated source file name of the
internal-error message is dropped.) -/
def scrubDefragWrite (p : SDState) (pgno : Nat) (data : List Nat) : SDState :=
  if p.rcErr ≠ 0 then p
  else if pgno > p.nDestPage then
    let p1 := scrubDefragErr p
      ("internal logic error or database is corrupt, please run pragma " ++
        "integrity_check on database")
    { p1 with rcErr := 11 }
  else { p with destLog := (pgno, data) :: p.destLog }

/-! ## OverflowCopier (`scrubDefragOverflow`, lines 336-366) -/

/-- The `while( nByte>0 && pgno!=0 )` loop of lines 346-364.  `fuel` bounds
the iteration count (the C loop runs at most `nByte` iterations whenever
`szUsable ≥ 5`, so any `fuel ≥ nByte` is exact; it could only be exhausted
at degenerate usable sizes, where the C loop does not terminate either). -/
def scrubDefragOverflowLoop : Nat → SDState → Nat → Nat → SDState
  | 0, p, _, _ => p
  | fuel + 1, p, pgno, nByte =>
      if nByte > 0 ∧ pgno ≠ 0 then
        match scrubDefragRead p pgno with
        | (none, p1) => p1
        | (some a0, p1) =>
            let step : List Nat × Nat :=
              if nByte ≥ p1.szUsable - 4 then (a0, nByte - (p1.szUsable - 4))
              else
                let x := (p1.szUsable - 4) - nByte
                let i := p1.szUsable - x
                (sdZeroRange a0 i x, 0)
            let a := step.1
            let nByte2 := step.2
            let pgno2 := scrubDefragInt32 a 0
            let iCur := p1.iDestPageNo
            let next : SDState × List Nat :=
              if pgno2 ≠ 0 then
                let p2 := scrubDefragIncDestPageNo p1
                (p2, scrubDefragWriteInt32 a 0 p2.iDestPageNo)
              else (p1, a)
            let p3 := scrubDefragWrite next.1 iCur next.2
            scrubDefragOverflowLoop fuel p3 pgno2 nByte2
      else p

/-- `scrubDefragOverflow` (lines 336-366): allocate the scratch page (which
returns NULL and does nothing when an error is already recorded, lines
102-108), then run the copy loop. -/
def scrubDefragOverflow (p : SDState) (pgno nByte fuel : Nat) : SDState :=
  if p.rcErr ≠ 0 then p
  else scrubDefragOverflowLoop fuel p pgno nByte

/-! ## BTreePageRewriter (`scrubDefragBtree`, lines 369-489) -/

/-- The free-block loop of lines 411-422.  Pure on the buffer: it returns
the zeroed buffer, or the `__LINE__` tag of the violated check.  `fuel`
bounds iterations; every chain either ends, violates a check, or strictly
increases `pc` by at least 4, so `fuel = szUsable + 1` is always enough. -/
def scrubDefragFreeBlocks (szUsable : Nat) : Nat → List Nat → Nat →
    Except Nat (List Nat)
  | 0, _, _ => .error 0
  | fuel + 1, a, pc =>
      if pc = 0 then .ok a
      else if pc > szUsable - 4 then .error 415
      else
        let n := scrubDefragInt16 a (pc + 2)
        if pc + n > szUsable then .error 417
        else
          let a1 := if n > 4 then sdZeroRange a (pc + 4) (n - 4) else a
          let x := scrubDefragInt16 a1 pc
          if x < pc + 4 ∧ x > 0 then .error 420
          else scrubDefragFreeBlocks szUsable fuel a1 x

/-- The payload half of one iteration of the cell loop (lines 441-464),
starting at `pc0`, the cell offset after the interior child pointer has been
skipped when present.  Returns the updated state, the updated buffer, and
`some ln` when a `goto btree_corrupt` fires.  The overflow call passes
`P - nLocal` as a u32 (the C parameter type), with loop fuel chosen exact
per the note on `scrubDefragOverflowLoop`. -/
def scrubDefragCellPayload (p : SDState) (a : List Nat) (pc0 kind : Nat) :
    SDState × List Nat × Option Nat :=
  let P := (scrubDefragVarint a pc0).1
  let pc := pc0 + (scrubDefragVarint a pc0).2
  if pc ≥ p.szUsable then (p, a, some 442)
  else
    let X := if kind = 13 then p.szUsable - 35
      else (p.szUsable - 12) * 64 / 255 - 23
    if P ≤ X then (p, a, none)
    else
      let M := (p.szUsable - 12) * 32 / 255 - 23
      let K := M + (P - M) % (p.szUsable - 4)
      let pc2 := if kind = 13 then pc + scrubDefragVarintSize a pc else pc
      if kind = 13 ∧ pc2 > p.szUsable - 4 then (p, a, some 456)
      else
        let nLocal := if K ≤ X then K else M
        if pc2 + nLocal > p.szUsable - 4 then (p, a, some 459)
        else
          let iChild := scrubDefragInt32 a (pc2 + nLocal)
          let p1 := scrubDefragIncDestPageNo p
          let a1 := scrubDefragWriteInt32 a (pc2 + nLocal) p1.iDestPageNo
          let nB := (P - nLocal) % 4294967296
          (scrubDefragOverflow p1 iChild nB (nB + 1), a1, none)

/-- One iteration of the cell loop (lines 425-465) for cell index `i`.
`recurse` is the recursive `scrubDefragBtree` call at depth `iDepth+1`
(instantiated in `scrubDefragBtree` below).  None of the checks nor
`scrubDefragIncDestPageNo` consult `rcErr`, exactly as in the source. -/
def scrubDefragCellStep (recurse : SDState → Nat → SDState)
    (nPfx szHdr kind : Nat) (p : SDState) (a : List Nat) (i : Nat) :
    SDState × List Nat × Option Nat :=
  let pc := scrubDefragInt16 a (nPfx + szHdr + i * 2)
  if pc ≤ szHdr then (p, a, some 429)
  else if pc > p.szUsable - 3 then (p, a, some 430)
  else if kind = 5 ∨ kind = 2 then
    if pc + 4 > p.szUsable then (p, a, some 432)
    else
      let iChild := scrubDefragInt32 a pc
      let p1 := scrubDefragIncDestPageNo p
      let a1 := scrubDefragWriteInt32 a pc p1.iDestPageNo
      let p2 := recurse p1 iChild
      if kind = 5 then (p2, a1, none)
      else scrubDefragCellPayload p2 a1 (pc + 4) kind
  else scrubDefragCellPayload p a pc kind

/-- The cell loop of lines 425-465 over the remaining cell indices
(`List.range nCell` at the top call). -/
def scrubDefragCellLoop (recurse : SDState → Nat → SDState)
    (nPfx szHdr kind : Nat) :
    List Nat → SDState → List Nat → SDState × List Nat × Option Nat
  | [], p, a => (p, a, none)
  | i :: rest, p, a =>
      match scrubDefragCellStep recurse nPfx szHdr kind p a i with
      | (p1, a1, some ln) => (p1, a1, some ln)
      | (p1, a1, none) => scrubDefragCellLoop recurse nPfx szHdr kind rest p1 a1

/-- The `btree_corrupt` tail of lines 485-489 (with the page-1 write-back of
the aliased buffer, see the note on `SDState`). -/
def scrubDefragBtreeCorrupt (p : SDState) (a : List Nat) (pgno ln : Nat) :
    SDState :=
  let p1 := scrubDefragErr p ("corruption on page " ++ toString pgno ++
    " of source database (errid=" ++ toString ln ++ ")")
  if pgno = 1 then { p1 with page1 := a } else p1

/-- The gap-zeroing step of lines 403-409: with `x` the start of the cell
content area read at `aTop[5]` and `y = szHdr + nPrefix + 2*nCell`,
`if( y<x ) memset(a+y, 0, x-y)`.  Note that the upper end of the zeroed
range is the RAW value `x`, an offset from the start of the page buffer -
`nPrefix` is part of `y` only. -/
def scrubDefragGapZero (a : List Nat) (y x : Nat) : List Nat :=
  if y < x then sdZeroRange a y (x - y) else a

/-- The tail of `scrubDefragBtree` (lines 466-482) for the already cell-walked
state `p1` and buffer `a3`: the right-most child (lines 468-473), the extra
allocator advance for a root (lines 474-476), and the write of this page at
`iCur`, the destination number captured at entry (line 384); plus the page-1
write-back of the aliased buffer (see the note on `SDState`). -/
def scrubDefragBtreeFinish (recurse : SDState → Nat → SDState) (p1 : SDState)
    (a3 : List Nat) (pgno nPfx kind : Nat) (bRoot : Bool) (iCur : Nat) :
    SDState :=
  let step : SDState × List Nat :=
    if kind = 5 ∨ kind = 2 then
      let iChild := scrubDefragInt32 a3 (nPfx + 8)
      let p2 := scrubDefragIncDestPageNo p1
      let a4 := scrubDefragWriteInt32 a3 (nPfx + 8) p2.iDestPageNo
      (recurse p2 iChild, a4)
    else (p1, a3)
  let p3 := if bRoot then scrubDefragIncDestPageNo step.1 else step.1
  let p4 := scrubDefragWrite p3 iCur step.2
  if pgno = 1 then { p4 with page1 := step.2 } else p4

/-- The body of `scrubDefragBtree` from line 397 on, once the page content
`a` is in hand.  `recurse` is the recursive call at depth `iDepth+1`. -/
def scrubDefragBtreePage (recurse : SDState → Nat → SDState) (p : SDState)
    (a : List Nat) (pgno : Nat) (bRoot : Bool) : SDState :=
  let iCur := p.iDestPageNo
  let nPfx := if pgno = 1 then 100 else 0
  let kind := a.getD nPfx 0
  let szHdr := 8 + 4 * (if kind = 2 ∨ kind = 5 then 1 else 0)
  let nCell := scrubDefragInt16 a (nPfx + 3)
  let x := scrubDefragInt16 a (nPfx + 5)
  if x > p.szUsable then scrubDefragBtreeCorrupt p a pgno 406
  else
    let y := szHdr + nPfx + nCell * 2
    if y > x then scrubDefragBtreeCorrupt p a pgno 408
    else
      let a1 := scrubDefragGapZero a y x
      let pcf := scrubDefragInt16 a1 (nPfx + 1)
      if pcf > 0 ∧ pcf < x then scrubDefragBtreeCorrupt p a1 pgno 413
      else
        match scrubDefragFreeBlocks p.szUsable (p.szUsable + 1) a1 pcf with
        | .error ln => scrubDefragBtreeCorrupt p a1 pgno ln
        | .ok a2 =>
            match scrubDefragCellLoop recurse nPfx szHdr kind
                (List.range nCell) p a2 with
            | (p1, a3, some ln) => scrubDefragBtreeCorrupt p1 a3 pgno ln
            | (p1, a3, none) =>
                scrubDefragBtreeFinish recurse p1 a3 pgno nPfx kind bRoot iCur

/-- `scrubDefragBtree` (lines 369-489).  The structural `fuel` argument
bounds the recursion nesting; since every nested call increases `iDepth` and
depth 51 aborts at line 388, `fuel = 52 - iDepth` is always exact and the
fuel-exhaustion branch (which only marks an error so that no theorem
conditioned on a clean run can cross it) is unreachable from the top-level
calls `scrubDefragBtree 52 p pgno 0 bRoot` used throughout. -/
def scrubDefragBtree : Nat → SDState → Nat → Nat → Bool → SDState
  | 0, p, _, _, _ =>
      { p with rcErr := if p.rcErr = 0 then 1 else p.rcErr }
  | fuel + 1, p, pgno, iDepth, bRoot =>
      if p.rcErr ≠ 0 then p
      else if iDepth > 50 then
        scrubDefragErr p ("corrupt: b-tree too deep at page " ++ toString pgno)
      else
        match (if pgno = 1 then (some p.page1, p) else scrubDefragRead p pgno) with
        | (none, p1) => p1
        | (some a, p1) =>
            scrubDefragBtreePage
              (fun q c => scrubDefragBtree fuel q c (iDepth + 1) false)
              p1 a pgno bRoot

/-! ## The relocation loop (`sqlite3_scrub_and_defrag`, lines 531-549) -/

/-- The `while( sqlite3_step(pStmt)==SQLITE_ROW )` loop of lines 539-549 over
the query result `rows`: for each row the UPDATE appended to the script reads
the CURRENT `s.iDestPageNo` as the new root page (line 544) BEFORE
`scrubDefragBtree(&s, i, 0, 1)` runs (line 548).  Returns the final state and
the `(oldRoot, newRoot)` pairs of the script, in row order.  The C loop does
not consult `rcErr` between rows, and neither does this model. -/
def scrubDefragRelocLoop (p : SDState) :
    List SchemaRow → SDState × List (Nat × Nat)
  | [] => (p, [])
  | r :: rest =>
      let newRoot := p.iDestPageNo
      let p1 := scrubDefragBtree 52 p r.rootpage 0 true
      let done := scrubDefragRelocLoop p1 rest
      (done.1, (r.rootpage, newRoot) :: done.2)

/-- Lines 531-549 of `sqlite3_scrub_and_defrag`: rewrite the schema tree
rooted at page 1 (line 532, `isRoot` set), then run the relocation loop over
the ordered catalog rows. -/
def sqlite3ScrubAndDefragCore (p : SDState) (rows : List SchemaRow) :
    SDState × List (Nat × Nat) :=
  scrubDefragRelocLoop (scrubDefragBtree 52 p 1 0 true) rows

/-- Lines 531-550 of `sqlite3_scrub_and_defrag`: the copy phase of
`sqlite3ScrubAndDefragCore` followed by line 550's UNCONDITIONAL
`s.rcErr = sqlite3_finalize(pStmt)`.  `rcFinalize` is the library's return
value, an input of the model; for a statement whose rows were all stepped to
completion - the loop's exit condition at line 539 - it is `SQLITE_OK` (0).
The assignment does not consult the previously recorded `rcErr`. -/
def sqlite3ScrubAndDefragFinalize (p : SDState) (rows : List SchemaRow)
    (rcFinalize : Nat) : SDState × List (Nat × Nat) :=
  let done := sqlite3ScrubAndDefragCore p rows
  ({ done.1 with rcErr := rcFinalize }, done.2)

/-! ## Error-channel lemmas: what short-circuits and what does not -/

theorem sdErr_rcErr_ne_zero (p : SDState) (m : String) :
    (scrubDefragErr p m).rcErr ≠ 0 := by
  unfold scrubDefragErr
  by_cases h : p.rcErr = 0 <;> simp [h]

theorem sdErr_rcErr_preserve (p : SDState) (m : String) (h : p.rcErr ≠ 0) :
    (scrubDefragErr p m).rcErr = p.rcErr := by
  unfold scrubDefragErr
  simp [h]

theorem sdBtreeCorrupt_rcErr_ne_zero (p : SDState) (a : List Nat) (pgno ln : Nat) :
    (scrubDefragBtreeCorrupt p a pgno ln).rcErr ≠ 0 := by
  unfold scrubDefragBtreeCorrupt
  split
  · show (scrubDefragErr p ("corruption on page " ++ toString pgno ++
      " of source database (errid=" ++ toString ln ++ ")")).rcErr ≠ 0
    exact sdErr_rcErr_ne_zero _ _
  · exact sdErr_rcErr_ne_zero _ _

theorem sdRead_err (p : SDState) (pgno : Nat) (h : p.rcErr ≠ 0) :
    scrubDefragRead p pgno = (none, p) := by
  unfold scrubDefragRead
  simp [h]

theorem sdWrite_err (p : SDState) (pgno : Nat) (a : List Nat) (h : p.rcErr ≠ 0) :
    scrubDefragWrite p pgno a = p := by
  unfold scrubDefragWrite
  simp [h]

theorem sdOverflow_err (p : SDState) (pgno nByte fuel : Nat) (h : p.rcErr ≠ 0) :
    scrubDefragOverflow p pgno nByte fuel = p := by
  unfold scrubDefragOverflow
  simp [h]

theorem sdBtree_err (fuel : Nat) (p : SDState) (pgno iDepth : Nat) (bRoot : Bool)
    (h : p.rcErr ≠ 0) :
    scrubDefragBtree (fuel + 1) p pgno iDepth bRoot = p := by
  rw [show scrubDefragBtree (fuel + 1) p pgno iDepth bRoot =
    (if p.rcErr ≠ 0 then p
      else if iDepth > 50 then
        scrubDefragErr p ("corrupt: b-tree too deep at page " ++ toString pgno)
      else
        match (if pgno = 1 then (some p.page1, p) else scrubDefragRead p pgno) with
        | (none, p1) => p1
        | (some a, p1) =>
            scrubDefragBtreePage
              (fun q c => scrubDefragBtree fuel q c (iDepth + 1) false)
              p1 a pgno bRoot) from rfl]
  simp [h]

/-! Backward direction: no operation ever clears a recorded error. -/

theorem sdRead_noclear (p : SDState) (pgno : Nat)
    (h : (scrubDefragRead p pgno).2.rcErr = 0) : p.rcErr = 0 := by
  by_cases h0 : p.rcErr = 0
  · exact h0
  · rw [sdRead_err p pgno h0] at h
    exact h

theorem sdWrite_noclear (p : SDState) (pgno : Nat) (a : List Nat)
    (h : (scrubDefragWrite p pgno a).rcErr = 0) : p.rcErr = 0 := by
  unfold scrubDefragWrite at h
  split at h
  · exact h
  · split at h
    · exact absurd h (by simp)
    · exact h

theorem sdInc_rcErr (p : SDState) :
    (scrubDefragIncDestPageNo p).rcErr = p.rcErr := rfl

theorem sdInc_fields (p : SDState) :
    (scrubDefragIncDestPageNo p).src = p.src ∧
    (scrubDefragIncDestPageNo p).szUsable = p.szUsable ∧
    (scrubDefragIncDestPageNo p).nDestPage = p.nDestPage ∧
    (scrubDefragIncDestPageNo p).destLog = p.destLog :=
  ⟨rfl, rfl, rfl, rfl⟩

theorem sdOverflowLoop_noclear : ∀ (fuel : Nat) (p : SDState) (pgno nByte : Nat),
    (scrubDefragOverflowLoop fuel p pgno nByte).rcErr = 0 → p.rcErr = 0
  | 0, p, pgno, nByte, h => h
  | fuel + 1, p, pgno, nByte, h => by
      by_cases h0 : p.rcErr = 0
      · exact h0
      · exfalso
        unfold scrubDefragOverflowLoop at h
        rw [sdRead_err p pgno h0] at h
        split at h
        · exact h0 h
        · exact h0 h

theorem sdBtree_noclear : ∀ (fuel : Nat) (p : SDState) (pgno iDepth : Nat)
    (bRoot : Bool),
    (scrubDefragBtree fuel p pgno iDepth bRoot).rcErr = 0 → p.rcErr = 0
  | 0, p, pgno, d, r, h => by
      by_cases h0 : p.rcErr = 0
      · exact h0
      · exfalso
        have he : (scrubDefragBtree 0 p pgno d r).rcErr =
            if p.rcErr = 0 then 1 else p.rcErr := rfl
        rw [he, if_neg h0] at h
        exact h0 h
  | fuel + 1, p, pgno, d, r, h => by
      by_cases h0 : p.rcErr = 0
      · exact h0
      · rw [sdBtree_err fuel p pgno d r h0] at h
        exact h

theorem sdRelocLoop_noclear : ∀ (rows : List SchemaRow) (p : SDState),
    (scrubDefragRelocLoop p rows).1.rcErr = 0 → p.rcErr = 0
  | [], _, h => h
  | r :: rest, p, h => by
      unfold scrubDefragRelocLoop at h
      exact sdBtree_noclear 52 p r.rootpage 0 true
        (sdRelocLoop_noclear rest _ h)

/-! ## The shape of a clean rewrite: the page's own write comes last, at the
destination number captured at entry -/

theorem sdWrite_success (p : SDState) (pgno : Nat) (a : List Nat)
    (h : (scrubDefragWrite p pgno a).rcErr = 0) :
    (scrubDefragWrite p pgno a).destLog = (pgno, a) :: p.destLog := by
  by_cases h0 : p.rcErr = 0
  · by_cases h1 : pgno > p.nDestPage
    · exfalso
      unfold scrubDefragWrite at h
      rw [if_neg (by simp [h0]), if_pos h1] at h
      exact absurd h (by simp)
    · unfold scrubDefragWrite
      rw [if_neg (by simp [h0]), if_neg h1]
  · exfalso
    rw [sdWrite_err p pgno a h0] at h
    exact h0 h

theorem sdFinishTail (q : SDState) (buf : List Nat) (iCur : Nat) (c : Prop)
    [Decidable c]
    (h : ((if c then { scrubDefragWrite q iCur buf with page1 := buf }
        else scrubDefragWrite q iCur buf) : SDState).rcErr = 0) :
    ((if c then { scrubDefragWrite q iCur buf with page1 := buf }
        else scrubDefragWrite q iCur buf) : SDState).destLog =
      (iCur, buf) :: q.destLog := by
  by_cases hc : c
  · simp only [if_pos hc] at h ⊢
    exact sdWrite_success q iCur buf h
  · simp only [if_neg hc] at h ⊢
    exact sdWrite_success q iCur buf h

theorem sdBtreeFinish_success (recurse : SDState → Nat → SDState)
    (p1 : SDState) (a3 : List Nat) (pgno nPfx kind : Nat) (bRoot : Bool)
    (iCur : Nat)
    (h : (scrubDefragBtreeFinish recurse p1 a3 pgno nPfx kind bRoot iCur).rcErr
      = 0) :
    ∃ buf rest,
      (scrubDefragBtreeFinish recurse p1 a3 pgno nPfx kind bRoot iCur).destLog =
        (iCur, buf) :: rest := by
  unfold scrubDefragBtreeFinish at h ⊢
  simp only [] at h ⊢
  exact ⟨_, _, sdFinishTail _ _ _ _ h⟩

theorem sdBtreePage_cases (recurse : SDState → Nat → SDState) (p : SDState)
    (a : List Nat) (pgno : Nat) (bRoot : Bool) :
    (∃ q a' ln, scrubDefragBtreePage recurse p a pgno bRoot =
        scrubDefragBtreeCorrupt q a' pgno ln) ∨
    (∃ p1 a3 nPfx kind, scrubDefragBtreePage recurse p a pgno bRoot =
        scrubDefragBtreeFinish recurse p1 a3 pgno nPfx kind bRoot
          p.iDestPageNo) := by
  unfold scrubDefragBtreePage
  simp only []
  repeat' split
  all_goals
    first
      | exact Or.inl ⟨_, _, _, rfl⟩
      | exact Or.inr ⟨_, _, _, _, rfl⟩

theorem sdBtreePage_success (recurse : SDState → Nat → SDState) (p : SDState)
    (a : List Nat) (pgno : Nat) (bRoot : Bool)
    (h : (scrubDefragBtreePage recurse p a pgno bRoot).rcErr = 0) :
    ∃ buf rest, (scrubDefragBtreePage recurse p a pgno bRoot).destLog =
      (p.iDestPageNo, buf) :: rest := by
  rcases sdBtreePage_cases recurse p a pgno bRoot with
    ⟨q, a', ln, heq⟩ | ⟨p1, a3, nPfx, kind, heq⟩
  · rw [heq] at h
    exact absurd h (sdBtreeCorrupt_rcErr_ne_zero _ _ _ _)
  · rw [heq] at h ⊢
    exact sdBtreeFinish_success _ _ _ _ _ _ _ _ h

theorem sdRead_none_rcErr (p : SDState) (pgno : Nat) (h0 : p.rcErr = 0)
    (p1 : SDState) (heq : scrubDefragRead p pgno = (none, p1)) :
    p1.rcErr = 10 := by
  unfold scrubDefragRead at heq
  rw [if_neg (by simp [h0])] at heq
  cases hsrc : p.src pgno with
  | some pg =>
      rw [hsrc] at heq
      exact absurd heq (by simp)
  | none =>
      rw [hsrc] at heq
      have h2 := (Prod.mk.injEq _ _ _ _).mp heq
      rw [← h2.2]

theorem sdRead_some (p : SDState) (pgno : Nat) (a : List Nat) (p1 : SDState)
    (heq : scrubDefragRead p pgno = (some a, p1)) :
    p1 = p ∧ p.src pgno = some a := by
  unfold scrubDefragRead at heq
  split at heq
  · exact absurd heq (by simp)
  · cases hsrc : p.src pgno with
    | some pg =>
        rw [hsrc] at heq
        have h2 := (Prod.mk.injEq _ _ _ _).mp heq
        exact ⟨h2.2.symm, h2.1⟩
    | none =>
        rw [hsrc] at heq
        exact absurd heq (by simp)

theorem sdBtree_success (fuel : Nat) (p : SDState) (pgno iDepth : Nat)
    (bRoot : Bool)
    (h : (scrubDefragBtree (fuel + 1) p pgno iDepth bRoot).rcErr = 0) :
    ∃ buf rest, (scrubDefragBtree (fuel + 1) p pgno iDepth bRoot).destLog =
      (p.iDestPageNo, buf) :: rest := by
  have h0 : p.rcErr = 0 := sdBtree_noclear _ _ _ _ _ h
  have hbody : scrubDefragBtree (fuel + 1) p pgno iDepth bRoot =
      (if p.rcErr ≠ 0 then p
       else if iDepth > 50 then
         scrubDefragErr p ("corrupt: b-tree too deep at page " ++ toString pgno)
       else
         match (if pgno = 1 then (some p.page1, p)
             else scrubDefragRead p pgno) with
         | (none, p1) => p1
         | (some a, p1) =>
             scrubDefragBtreePage
               (fun q c => scrubDefragBtree fuel q c (iDepth + 1) false)
               p1 a pgno bRoot) := rfl
  rw [hbody] at h ⊢
  rw [if_neg (by simp [h0])] at h ⊢
  by_cases hd : iDepth > 50
  · rw [if_pos hd] at h
    exact absurd h (sdErr_rcErr_ne_zero _ _)
  · rw [if_neg hd] at h ⊢
    by_cases hp : pgno = 1
    · rw [if_pos hp] at h ⊢
      exact sdBtreePage_success _ p _ pgno bRoot h
    · rw [if_neg hp] at h ⊢
      rcases hread : scrubDefragRead p pgno with ⟨oa, p1⟩
      rw [hread] at h
      cases oa with
      | none =>
          have h10 := sdRead_none_rcErr p pgno h0 p1 hread
          have hz : p1.rcErr = 0 := h
          omega
      | some a =>
          obtain ⟨hp1, hsrc⟩ := sdRead_some p pgno a p1 hread
          rw [hp1] at h ⊢
          exact sdBtreePage_success _ p a pgno bRoot h

theorem sdRelocLoop_append (p : SDState) (xs ys : List SchemaRow) :
    scrubDefragRelocLoop p (xs ++ ys) =
      ((scrubDefragRelocLoop (scrubDefragRelocLoop p xs).1 ys).1,
        (scrubDefragRelocLoop p xs).2 ++
          (scrubDefragRelocLoop (scrubDefragRelocLoop p xs).1 ys).2) := by
  induction xs generalizing p with
  | nil => simp [scrubDefragRelocLoop]
  | cons r rest ih =>
      simp only [List.cons_append, scrubDefragRelocLoop, List.append_eq]
      rw [ih]

/-- Claim C1: for every root page processed with `isRoot` set (page 1, line
532, and each schema-catalog root in the relocation loop, lines 539-549),
the destination page number recorded by the loop as `newRoot` - the allocator
value `s.iDestPageNo` read into the UPDATE script (line 544) immediately
before calling `scrubDefragBtree(&s, oldRoot, 0, 1)` (line 548) - equals the
destination page number at which that call writes the root page itself: on a
clean run the call's most recent destination write (the head of its write
log) is at exactly that page number, for EVERY split `rows = pre ++ r :: post`
of the loop's rows, i.e. for every root in the loop; and likewise the page-1
rewrite writes page 1 at the allocator value observed before it (initially
1).  The extra root advance of lines 474-476 happens before the write of
line 479, which uses the entry-captured `iCurrentPageNo` (line 384), which is
what keeps this equality for each subsequent root. -/
theorem scrubDefrag_c1_rootScript (p : SDState) (rows pre post : List SchemaRow)
    (r : SchemaRow) (hsplit : rows = pre ++ r :: post)
    (hok : (sqlite3ScrubAndDefragCore p rows).1.rcErr = 0) :
    let p1 := scrubDefragBtree 52 p 1 0 true
    let pj := (scrubDefragRelocLoop p1 pre).1
    (sqlite3ScrubAndDefragCore p rows).2 =
        (scrubDefragRelocLoop p1 pre).2 ++ (r.rootpage, pj.iDestPageNo) ::
          (scrubDefragRelocLoop (scrubDefragBtree 52 pj r.rootpage 0 true)
            post).2 ∧
    (∃ buf rest, (scrubDefragBtree 52 pj r.rootpage 0 true).destLog =
        (pj.iDestPageNo, buf) :: rest) ∧
    (∃ buf1 rest1, p1.destLog = (p.iDestPageNo, buf1) :: rest1) := by
  intro p1 pj
  subst hsplit
  unfold sqlite3ScrubAndDefragCore at hok ⊢
  have happ := sdRelocLoop_append p1 pre (r :: post)
  refine ⟨?_, ?_, ?_⟩
  · rw [show scrubDefragRelocLoop p1 (pre ++ r :: post) =
      scrubDefragRelocLoop p1 (pre ++ r :: post) from rfl, happ]
    simp only [scrubDefragRelocLoop]
  · have hch : (scrubDefragRelocLoop
        (scrubDefragBtree 52 pj r.rootpage 0 true) post).1.rcErr = 0 := by
      rw [happ] at hok
      exact hok
    have hbt0 : (scrubDefragBtree 52 pj r.rootpage 0 true).rcErr = 0 :=
      sdRelocLoop_noclear post _ hch
    exact sdBtree_success 51 pj r.rootpage 0 true hbt0
  · have h1 : p1.rcErr = 0 := by
      rw [happ] at hok
      exact sdRelocLoop_noclear pre p1
        (sdBtree_noclear 52 _ r.rootpage 0 true
          (sdRelocLoop_noclear post _ hok))
    exact sdBtree_success 51 p 1 0 true h1

/-- A concrete 128-byte-page source for the C1 witness: page 1 is a table
leaf with no cells (cell content starts at 120), page 2 likewise (content at
50); the catalog holds one table rooted at source page 2. -/
def sdC1Page1 : List Nat :=
  ((((List.replicate 128 7).set 100 13).set 103 0).set 104 0).set 105 0
    |>.set 106 120 |>.set 101 0 |>.set 102 0 |>.set 107 0

def sdC1Page2 : List Nat :=
  ((((List.replicate 128 3).set 0 13).set 3 0).set 4 0).set 5 0
    |>.set 6 50 |>.set 1 0 |>.set 2 0 |>.set 7 0

def sdC1S0 : SDState :=
  { rcErr := 0, zErr := "", szPage := 128, szUsable := 128, nDestPage := 5,
    iDestPageNo := 1, iLock := 1000000,
    src := fun pg => if pg = 2 then some sdC1Page2 else none,
    page1 := sdC1Page1, destLog := [] }

def sdC1Row : SchemaRow := ⟨2, "t", "table"⟩

/-- Witness for C1: on the concrete source above, the run is clean, the
script records `newRoot = 2` for the table rooted at source page 2, and that
root rewrite indeed writes its page at destination page 2, while the page-1
rewrite writes at destination page 1. -/
theorem scrubDefrag_c1_rootScript_witness :
    let p1 := scrubDefragBtree 52 sdC1S0 1 0 true
    let pj := (scrubDefragRelocLoop p1 []).1
    (sqlite3ScrubAndDefragCore sdC1S0 [sdC1Row]).2 =
        (scrubDefragRelocLoop p1 []).2 ++ (sdC1Row.rootpage, pj.iDestPageNo) ::
          (scrubDefragRelocLoop (scrubDefragBtree 52 pj sdC1Row.rootpage 0 true)
            []).2 ∧
    (∃ buf rest, (scrubDefragBtree 52 pj sdC1Row.rootpage 0 true).destLog =
        (pj.iDestPageNo, buf) :: rest) ∧
    (∃ buf1 rest1, p1.destLog = (sdC1S0.iDestPageNo, buf1) :: rest1) :=
  scrubDefrag_c1_rootScript sdC1S0 [sdC1Row] [] [] sdC1Row rfl (by decide)

/-! ## Claim C3: the sticky-error policy -/

/-- A 32-byte interior table page (kind 0x05) at source page 5 with three
cells: cell 0 points at child page 2 (unreadable), cell 1 at child page 3,
and cell 2 has the corrupt cell-pointer 5 (inside the header).  Layout:
`nCell = 3` (bytes 3-4), cell content start 20 (bytes 5-6), right child 4
(bytes 8-11), cell pointers 20, 24, 5 (bytes 12-17), left-child numbers 2
and 3 at offsets 20 and 24. -/
def sdC3Page5 : List Nat :=
  ((((((((List.replicate 32 0).set 0 5).set 4 3).set 6 20).set 11 4).set
    13 20).set 15 24).set 17 5).set 23 2 |>.set 27 3

def sdC3S0 : SDState :=
  { rcErr := 0, zErr := "", szPage := 32, szUsable := 32, nDestPage := 10,
    iDestPageNo := 1, iLock := 1000000,
    src := fun pg => if pg = 5 then some sdC3Page5 else none,
    page1 := [], destLog := [] }

/-- A clean 512-byte page 1 (leaf table page, no cells, cell content start
512) for the relocation-loop run of the C3 counterexample. -/
def sdC3Page1 : List Nat :=
  ((List.replicate 512 0).set 100 13).set 105 2

def sdC3S1 : SDState :=
  { rcErr := 0, zErr := "", szPage := 512, szUsable := 512, nDestPage := 10,
    iDestPageNo := 1, iLock := 1000000, src := fun _ => none,
    page1 := sdC3Page1, destLog := [] }

def sdC3Row : SchemaRow := ⟨7, "t1", "table"⟩

set_option maxRecDepth 100000 in
/-- Claim C3 counterexample.  Rewriting source page 5 of `sdC3S0`: cell 0
allocates destination 2 and recurses into page 2, whose read FAILS - the
first error, recorded with code 10 and message "read failed for page 2"
while the allocator stands at 2 (fourth to sixth conjuncts: the recursive
call that records it returns with `iDestPageNo = 2`).  The claim says every
subsequent operation now short-circuits with no further side effects and
that the first error's code and message are surfaced to the caller.
Instead the cell loop continues: cell 1 advances the allocator again (final
`iDestPageNo = 3`, not 2), and cell 2's corrupt pointer reports a SECOND
error whose message REPLACES the first (`scrubDefragErr` frees and reprints
`zErr` unconditionally, lines 94-96).  Nor is the first CODE surfaced: on
`sdC3S1` with one catalog row rooted at the unreadable page 7, the
relocation loop records code 10, but line 550 then overwrites `rcErr` with
`sqlite3_finalize`'s return value (0, every row having been stepped), so
the state reaching line 551 carries code 0 - the recorded error is erased
from the code channel while its message survives (last three conjuncts). -/
theorem scrubDefrag_c3_counterexample :
    (scrubDefragBtree 52 sdC3S0 5 0 false).rcErr = 10 ∧
    (scrubDefragBtree 52 sdC3S0 5 0 false).iDestPageNo = 3 ∧
    (scrubDefragBtree 52 sdC3S0 5 0 false).zErr =
      "corruption on page 5 of source database (errid=429)" ∧
    (scrubDefragBtree 52 { sdC3S0 with iDestPageNo := 2 } 2 1 false).rcErr = 10 ∧
    (scrubDefragBtree 52 { sdC3S0 with iDestPageNo := 2 } 2 1 false).zErr =
      "read failed for page 2" ∧
    (scrubDefragBtree 52 { sdC3S0 with iDestPageNo := 2 } 2 1 false).iDestPageNo
      = 2 ∧
    (scrubDefragBtree 52 sdC3S0 5 0 false).zErr ≠ "read failed for page 2" ∧
    (sqlite3ScrubAndDefragCore sdC3S1 [sdC3Row]).1.rcErr = 10 ∧
    (sqlite3ScrubAndDefragFinalize sdC3S1 [sdC3Row] 0).1.rcErr = 0 ∧
    (sqlite3ScrubAndDefragFinalize sdC3S1 [sdC3Row] 0).1.zErr =
      "read failed for page 7" := by
  refine ⟨by decide, by decide, by decide, by decide, by decide, by decide,
    by decide, by decide, by decide, by decide⟩

/-- Claim C3 (amended): once an error is recorded, page reads, page writes,
the overflow copier and any NEW B-tree rewrite call do short-circuit and
return with no state change, and a later error report never overwrites the
recorded CODE within the copy phase; but (per the counterexample) the error
MESSAGE is replaced by later reports, a B-tree walk already in progress
still advances the allocator and overwrites in-buffer pointers after the
error, and the code recorded during the copy phase is NOT the one surfaced:
line 550 overwrites `rcErr` with `sqlite3_finalize`'s return value
unconditionally - even when an error stands recorded - while the message
channel passes through untouched (last conjunct). -/
theorem scrubDefrag_c3_amended :
    (∀ (p : SDState) (pgno : Nat), p.rcErr ≠ 0 →
      scrubDefragRead p pgno = (none, p)) ∧
    (∀ (p : SDState) (pgno : Nat) (a : List Nat), p.rcErr ≠ 0 →
      scrubDefragWrite p pgno a = p) ∧
    (∀ (p : SDState) (pgno nByte fuel : Nat), p.rcErr ≠ 0 →
      scrubDefragOverflow p pgno nByte fuel = p) ∧
    (∀ (fuel : Nat) (p : SDState) (pgno iDepth : Nat) (bRoot : Bool),
      p.rcErr ≠ 0 → scrubDefragBtree (fuel + 1) p pgno iDepth bRoot = p) ∧
    (∀ (p : SDState) (m : String), p.rcErr ≠ 0 →
      (scrubDefragErr p m).rcErr = p.rcErr) ∧
    (∀ p : SDState, (scrubDefragIncDestPageNo p).rcErr = p.rcErr) ∧
    (∀ (p : SDState) (rows : List SchemaRow) (rcFinalize : Nat),
      (sqlite3ScrubAndDefragCore p rows).1.rcErr ≠ 0 →
      (sqlite3ScrubAndDefragFinalize p rows rcFinalize).1.rcErr = rcFinalize ∧
      (sqlite3ScrubAndDefragFinalize p rows rcFinalize).1.zErr =
        (sqlite3ScrubAndDefragCore p rows).1.zErr) :=
  ⟨sdRead_err, sdWrite_err, sdOverflow_err, sdBtree_err,
    sdErr_rcErr_preserve, sdInc_rcErr,
    fun _ _ _ _ => ⟨rfl, rfl⟩⟩

def sdC3ErrState : SDState :=
  { rcErr := 10, zErr := "read failed for page 2", szPage := 32,
    szUsable := 32, nDestPage := 10, iDestPageNo := 2, iLock := 1000000,
    src := fun _ => none, page1 := [], destLog := [] }

set_option maxRecDepth 100000 in
/-- Witness for the amended C3 at a concrete errored state, and for the
line-550 clobber at a concrete run whose relocation loop records code 10. -/
theorem scrubDefrag_c3_amended_witness :
    scrubDefragRead sdC3ErrState 7 = (none, sdC3ErrState) ∧
    scrubDefragWrite sdC3ErrState 1 [] = sdC3ErrState ∧
    scrubDefragOverflow sdC3ErrState 7 5 6 = sdC3ErrState ∧
    scrubDefragBtree 52 sdC3ErrState 7 0 false = sdC3ErrState ∧
    (scrubDefragErr sdC3ErrState "later").rcErr = sdC3ErrState.rcErr ∧
    (scrubDefragIncDestPageNo sdC3ErrState).rcErr = sdC3ErrState.rcErr ∧
    (sqlite3ScrubAndDefragFinalize sdC3S1 [sdC3Row] 0).1.rcErr = 0 ∧
    (sqlite3ScrubAndDefragFinalize sdC3S1 [sdC3Row] 0).1.zErr =
      (sqlite3ScrubAndDefragCore sdC3S1 [sdC3Row]).1.zErr :=
  ⟨scrubDefrag_c3_amended.1 sdC3ErrState 7 (by decide),
    scrubDefrag_c3_amended.2.1 sdC3ErrState 1 [] (by decide),
    scrubDefrag_c3_amended.2.2.1 sdC3ErrState 7 5 6 (by decide),
    scrubDefrag_c3_amended.2.2.2.1 51 sdC3ErrState 7 0 false (by decide),
    scrubDefrag_c3_amended.2.2.2.2.1 sdC3ErrState "later" (by decide),
    scrubDefrag_c3_amended.2.2.2.2.2.1 sdC3ErrState,
    (scrubDefrag_c3_amended.2.2.2.2.2.2 sdC3S1 [sdC3Row] 0 (by decide)).1,
    (scrubDefrag_c3_amended.2.2.2.2.2.2 sdC3S1 [sdC3Row] 0 (by decide)).2⟩

/-! ## Claim C7: the tail of a copied overflow chain -/

theorem sdGetD_ge_length : ∀ (a : List Nat) (j : Nat), a.length ≤ j →
    a.getD j 0 = 0
  | [], _, _ => rfl
  | _ :: _, 0, h => absurd h (by simp)
  | _ :: bs, j + 1, h => sdGetD_ge_length bs j (by simp at h; omega)

theorem sdWrite_src (p : SDState) (pgno : Nat) (a : List Nat) :
    (scrubDefragWrite p pgno a).src = p.src := by
  unfold scrubDefragWrite scrubDefragErr
  repeat' split
  all_goals rfl

theorem sdWrite_szUsable (p : SDState) (pgno : Nat) (a : List Nat) :
    (scrubDefragWrite p pgno a).szUsable = p.szUsable := by
  unfold scrubDefragWrite scrubDefragErr
  repeat' split
  all_goals rfl

theorem sdRead_eq_some (p : SDState) (pgno : Nat) (pg : List Nat)
    (h0 : p.rcErr = 0) (hsrc : p.src pgno = some pg) :
    scrubDefragRead p pgno = (some pg, p) := by
  unfold scrubDefragRead
  rw [if_neg (by simp [h0]), hsrc]

/-- A well-formed source overflow chain starting at page `pgno` carrying
`nByte` bytes of remaining payload, with `residual` the live byte count on
the last page: intermediate pages each hold `U - 4` payload bytes and link
through a nonzero next field; the last page holds `0 < residual ≤ U - 4`
bytes and its next field (first four bytes) is zero - §3 of the format:
"The chain ends when nextPageNumber == 0". -/
inductive sdOvflChain (src : Nat → Option (List Nat)) (U : Nat) :
    Nat → Nat → Nat → Prop
  | last (pgno nByte : Nat) (pg : List Nat) :
      pgno ≠ 0 → 0 < nByte → nByte ≤ U - 4 →
      src pgno = some pg → scrubDefragInt32 pg 0 = 0 →
      sdOvflChain src U pgno nByte nByte
  | step (pgno nByte residual : Nat) (pg : List Nat) :
      pgno ≠ 0 → U - 4 < nByte →
      src pgno = some pg → scrubDefragInt32 pg 0 ≠ 0 →
      sdOvflChain src U (scrubDefragInt32 pg 0) (nByte - (U - 4)) residual →
      sdOvflChain src U pgno nByte residual

theorem sdOverflowLoop_zero (fuel : Nat) (p : SDState) (nByte : Nat) :
    scrubDefragOverflowLoop fuel p 0 nByte = p := by
  cases fuel with
  | zero => rfl
  | succ f =>
      simp only [scrubDefragOverflowLoop]
      rw [if_neg (by simp)]

theorem sdOverflowLoop_tail (src : Nat → Option (List Nat)) (U : Nat)
    (hU : 5 ≤ U) :
    ∀ {pgno nByte residual : Nat}, sdOvflChain src U pgno nByte residual →
    ∀ (fuel : Nat) (p : SDState), p.src = src → p.szUsable = U →
    p.rcErr = 0 → nByte ≤ fuel →
    (scrubDefragOverflowLoop fuel p pgno nByte).rcErr = 0 →
    ∃ dest buf rest,
      (scrubDefragOverflowLoop fuel p pgno nByte).destLog =
        (dest, buf) :: rest ∧
      scrubDefragInt32 buf 0 = 0 ∧
      ∀ j, residual + 4 ≤ j → j < U → buf.getD j 0 = 0 := by
  intro pgno nByte residual hch
  induction hch with
  | last pgno nByte pg hne0 hpos hle hsrc hnext =>
      intro fuel p hps hus h0 hfuel hok
      obtain ⟨f, rfl⟩ : ∃ f, fuel = f + 1 := ⟨fuel - 1, by omega⟩
      have hsrc' : p.src pgno = some pg := by rw [hps]; exact hsrc
      simp only [scrubDefragOverflowLoop] at hok ⊢
      rw [if_pos ⟨hpos, hne0⟩, sdRead_eq_some p pgno pg h0 hsrc'] at hok ⊢
      simp only [] at hok ⊢
      rw [hus] at hok ⊢
      by_cases hge : nByte ≥ U - 4
      · have heq : nByte = U - 4 := by omega
        rw [if_pos hge] at hok ⊢
        simp only [] at hok ⊢
        rw [hnext] at hok ⊢
        rw [if_neg (by simp)] at hok ⊢
        rw [sdOverflowLoop_zero] at hok ⊢
        exact ⟨p.iDestPageNo, pg, p.destLog, sdWrite_success _ _ _ hok, hnext,
          fun j hj1 hj2 => by omega⟩
      · rw [if_neg hge] at hok ⊢
        simp only [] at hok ⊢
        have hi : U - (U - 4 - nByte) = nByte + 4 := by omega
        rw [hi] at hok ⊢
        have hz03 : scrubDefragInt32
            (sdZeroRange pg (nByte + 4) (U - 4 - nByte)) 0 = 0 := by
          unfold scrubDefragInt32
          rw [sdZeroRange_getD, sdZeroRange_getD, sdZeroRange_getD,
            sdZeroRange_getD]
          rw [if_neg (by omega), if_neg (by omega), if_neg (by omega),
            if_neg (by omega)]
          exact hnext
        rw [hz03] at hok ⊢
        rw [if_neg (by simp)] at hok ⊢
        rw [sdOverflowLoop_zero] at hok ⊢
        refine ⟨p.iDestPageNo, _, p.destLog, sdWrite_success _ _ _ hok, hz03,
          ?_⟩
        intro j hj1 hj2
        rw [sdZeroRange_getD]
        by_cases hl : j < pg.length
        · rw [if_pos ⟨by omega, by omega, hl⟩]
        · rw [if_neg (by tauto)]
          exact sdGetD_ge_length pg j (by omega)
  | step pgno nByte residual pg hne0 hgt hsrc hnz htail ih =>
      intro fuel p hps hus h0 hfuel hok
      obtain ⟨f, rfl⟩ : ∃ f, fuel = f + 1 := ⟨fuel - 1, by omega⟩
      have hsrc' : p.src pgno = some pg := by rw [hps]; exact hsrc
      simp only [scrubDefragOverflowLoop] at hok ⊢
      rw [if_pos ⟨by omega, hne0⟩, sdRead_eq_some p pgno pg h0 hsrc'] at hok ⊢
      simp only [] at hok ⊢
      rw [hus] at hok ⊢
      rw [if_pos (by omega : nByte ≥ U - 4)] at hok ⊢
      simp only [] at hok ⊢
      rw [if_pos hnz] at hok ⊢
      simp only [] at hok ⊢
      have hp3 : (scrubDefragWrite (scrubDefragIncDestPageNo p) p.iDestPageNo
          (scrubDefragWriteInt32 pg 0
            (scrubDefragIncDestPageNo p).iDestPageNo)).rcErr = 0 :=
        sdOverflowLoop_noclear f _ _ _ hok
      exact ih f _ (by rw [sdWrite_src]; exact hps)
        (by rw [sdWrite_szUsable]; exact hus) hp3 (by omega) hok

/-- Claim C7: for every overflow chain copied with some initial byte count
`nByte` (at the call site, `nByteRemaining = P - nLocal`), when the source
chain is well formed for that byte count (`sdOvflChain`, with `residual` the
live bytes on its last page) and the copy completes cleanly, the LAST chain
page written to the destination - the most recent entry of the write log -
has zeros from the end of the live payload (offset `residual + 4`) through
the end of the usable area, and its next-page field (the big-endian u32 in
its first four bytes) is zero. -/
theorem scrubDefrag_c7_overflowTail (p : SDState) (pgno nByte residual fuel : Nat)
    (hU : 5 ≤ p.szUsable)
    (hch : sdOvflChain p.src p.szUsable pgno nByte residual)
    (h0 : p.rcErr = 0) (hfuel : nByte ≤ fuel)
    (hok : (scrubDefragOverflow p pgno nByte fuel).rcErr = 0) :
    ∃ dest buf rest,
      (scrubDefragOverflow p pgno nByte fuel).destLog = (dest, buf) :: rest ∧
      scrubDefragInt32 buf 0 = 0 ∧
      ∀ j, residual + 4 ≤ j → j < p.szUsable → buf.getD j 0 = 0 := by
  have hov : scrubDefragOverflow p pgno nByte fuel =
      scrubDefragOverflowLoop fuel p pgno nByte := by
    unfold scrubDefragOverflow
    rw [if_neg (by simp [h0])]
  rw [hov] at hok ⊢
  exact sdOverflowLoop_tail p.src p.szUsable hU hch fuel p rfl rfl h0 hfuel hok

/-- A concrete two-page overflow chain on 16-byte pages (usable 16, so 12
payload bytes per page): page 7 holds 12 bytes and links to page 8, which
holds the remaining 5 of the 17 payload bytes. -/
def sdC7Page7 : List Nat :=
  (((List.replicate 16 6).set 0 0).set 1 0).set 2 0 |>.set 3 8

def sdC7Page8 : List Nat :=
  (((List.replicate 16 6).set 0 0).set 1 0).set 2 0 |>.set 3 0

def sdC7S0 : SDState :=
  { rcErr := 0, zErr := "", szPage := 16, szUsable := 16, nDestPage := 10,
    iDestPageNo := 3, iLock := 1000000,
    src := fun pg => if pg = 7 then some sdC7Page7
      else if pg = 8 then some sdC7Page8 else none,
    page1 := [], destLog := [] }

/-- Witness for C7 on the concrete chain above. -/
theorem scrubDefrag_c7_overflowTail_witness :
    ∃ dest buf rest,
      (scrubDefragOverflow sdC7S0 7 17 18).destLog = (dest, buf) :: rest ∧
      scrubDefragInt32 buf 0 = 0 ∧
      ∀ j, 5 + 4 ≤ j → j < sdC7S0.szUsable → buf.getD j 0 = 0 := by
  have h78 : scrubDefragInt32 sdC7Page7 0 = 8 := by decide
  have hch : sdOvflChain sdC7S0.src sdC7S0.szUsable 7 17 5 := by
    apply sdOvflChain.step 7 17 5 sdC7Page7 (by decide) (by decide) (by decide)
      (by decide)
    rw [h78]
    exact sdOvflChain.last 8 5 sdC7Page8 (by decide) (by decide) (by decide)
      (by decide) (by decide)
  exact scrubDefrag_c7_overflowTail sdC7S0 7 17 5 18 (by decide) hch
    (by decide) (by decide) (by decide)

/-! ## Claim C5: overflow thresholds of the payload path (lines 441-464) -/

/-- Claim C5: for a cell carrying payload processed at cell offset `pc0`
(after the interior child pointer, if any), with `P` the payload size read
as a varint and `U = szUsable`, the rewriter computes
`X = U - 35` for kind 0x0d and `X = ((U-12)*64/255) - 23` otherwise,
`M = ((U-12)*32/255) - 23`, `K = M + ((P-M) mod (U-4))`, and
`nLocal = K` if `K ≤ X` else `M` - all with truncating division - and it
invokes the overflow copier IF AND ONLY IF `P > X` (provided the range
checks of lines 442/456/459 pass): for `P ≤ X` the cell is left alone with
no state change, and for `P > X` the step reads the overflow head page
number as a big-endian u32 at offset `pc + nLocal` (with `pc` also past the
rowid varint for kind 0x0d), overwrites it with the freshly allocated
destination number, and calls the overflow copier with
`nByteRemaining = P - nLocal` (passed as a u32). -/
theorem scrubDefrag_c5_overflowThresholds (p : SDState) (a : List Nat)
    (pc0 kind : Nat)
    (h442 : pc0 + (scrubDefragVarint a pc0).2 < p.szUsable) :
    ((scrubDefragVarint a pc0).1 ≤
        (if kind = 13 then p.szUsable - 35
          else (p.szUsable - 12) * 64 / 255 - 23) →
      scrubDefragCellPayload p a pc0 kind = (p, a, none)) ∧
    (∀ pc2 nLocal : Nat,
      pc2 = (if kind = 13 then
          pc0 + (scrubDefragVarint a pc0).2 +
            scrubDefragVarintSize a (pc0 + (scrubDefragVarint a pc0).2)
        else pc0 + (scrubDefragVarint a pc0).2) →
      nLocal = (if (p.szUsable - 12) * 32 / 255 - 23 +
            ((scrubDefragVarint a pc0).1 -
              ((p.szUsable - 12) * 32 / 255 - 23)) % (p.szUsable - 4) ≤
            (if kind = 13 then p.szUsable - 35
              else (p.szUsable - 12) * 64 / 255 - 23) then
          (p.szUsable - 12) * 32 / 255 - 23 +
            ((scrubDefragVarint a pc0).1 -
              ((p.szUsable - 12) * 32 / 255 - 23)) % (p.szUsable - 4)
        else (p.szUsable - 12) * 32 / 255 - 23) →
      (scrubDefragVarint a pc0).1 >
        (if kind = 13 then p.szUsable - 35
          else (p.szUsable - 12) * 64 / 255 - 23) →
      ¬(kind = 13 ∧ pc2 > p.szUsable - 4) →
      pc2 + nLocal ≤ p.szUsable - 4 →
      scrubDefragCellPayload p a pc0 kind =
        (scrubDefragOverflow (scrubDefragIncDestPageNo p)
            (scrubDefragInt32 a (pc2 + nLocal))
            (((scrubDefragVarint a pc0).1 - nLocal) % 4294967296)
            (((scrubDefragVarint a pc0).1 - nLocal) % 4294967296 + 1),
          scrubDefragWriteInt32 a (pc2 + nLocal)
            (scrubDefragIncDestPageNo p).iDestPageNo,
          none)) := by
  constructor
  · intro hle
    unfold scrubDefragCellPayload
    simp only []
    rw [if_neg (by omega), if_pos hle]
  · intro pc2 nLocal hpc2 hnl hgt hc456 hc459
    subst hpc2
    subst hnl
    unfold scrubDefragCellPayload
    simp only []
    rw [if_neg (by omega), if_neg (by omega), if_neg hc456,
      if_neg (by omega)]

/-- A 512-byte buffer holding, at offset 10, a table-leaf cell whose payload
size varint is 600 (bytes 0x84 0x58) followed by a one-byte rowid varint.
With `U = 512`: `X = 477`, `M = 39`, `K = 39 + (600-39) % 508 = 92 ≤ X`, so
`nLocal = 92` and the overflow head is read at offset `13 + 92 = 105`. -/
def sdC5Buf : List Nat :=
  (((List.replicate 512 0).set 10 132).set 11 88).set 12 5

def sdC5S : SDState :=
  { rcErr := 0, zErr := "", szPage := 512, szUsable := 512, nDestPage := 10,
    iDestPageNo := 1, iLock := 1000000, src := fun _ => none, page1 := [],
    destLog := [] }

/-- Witness for C5: the no-overflow branch at a 1-byte payload (read at
offset 50, `P = 0 ≤ X`), and the overflow branch of the cell above
(`P = 600 > 477`), with `pc2 = 13` and `nLocal = 92`. -/
theorem scrubDefrag_c5_overflowThresholds_witness :
    scrubDefragCellPayload sdC5S sdC5Buf 50 13 = (sdC5S, sdC5Buf, none) ∧
    scrubDefragCellPayload sdC5S sdC5Buf 10 13 =
      (scrubDefragOverflow (scrubDefragIncDestPageNo sdC5S)
          (scrubDefragInt32 sdC5Buf (13 + 92))
          (((scrubDefragVarint sdC5Buf 10).1 - 92) % 4294967296)
          (((scrubDefragVarint sdC5Buf 10).1 - 92) % 4294967296 + 1),
        scrubDefragWriteInt32 sdC5Buf (13 + 92)
          (scrubDefragIncDestPageNo sdC5S).iDestPageNo,
        none) :=
  ⟨(scrubDefrag_c5_overflowThresholds sdC5S sdC5Buf 50 13 (by decide)).1
      (by decide),
    (scrubDefrag_c5_overflowThresholds sdC5S sdC5Buf 10 13 (by decide)).2
      13 92 (by decide) (by decide) (by decide) (by decide) (by decide)⟩

/-! ## Claim C4: the gap between the cell-pointer array and the cell
content area -/

theorem sdGapZero_zero (a : List Nat) (y x j : Nat) (h1 : y ≤ j) (h2 : j < x) :
    (scrubDefragGapZero a y x).getD j 0 = 0 := by
  unfold scrubDefragGapZero
  rw [if_pos (by omega), sdZeroRange_getD]
  by_cases hl : j < a.length
  · rw [if_pos ⟨h1, by omega, hl⟩]
  · rw [if_neg (by tauto)]
    exact sdGetD_ge_length a j (by omega)

theorem sdGapZero_getD_lt (a : List Nat) (y x j : Nat) (h : j < y) :
    (scrubDefragGapZero a y x).getD j 0 = a.getD j 0 := by
  unfold scrubDefragGapZero
  split
  · rw [sdZeroRange_getD, if_neg (by omega)]
  · rfl

theorem sdFreeBlocks_preserves (szUsable x : Nat) :
    ∀ (fuel : Nat) (a : List Nat) (pc : Nat), (pc = 0 ∨ x ≤ pc) →
    ∀ {a2 : List Nat}, scrubDefragFreeBlocks szUsable fuel a pc = .ok a2 →
    ∀ j, j < x → a2.getD j 0 = a.getD j 0
  | 0, a, pc, hpc, a2, heq, j, hj => by
      exact absurd heq (by simp [scrubDefragFreeBlocks])
  | fuel + 1, a, pc, hpc, a2, heq, j, hj => by
      unfold scrubDefragFreeBlocks at heq
      by_cases h0 : pc = 0
      · rw [if_pos h0] at heq
        cases heq
        rfl
      · have hx : x ≤ pc := by tauto
        rw [if_neg h0] at heq
        simp only [] at heq
        by_cases h415 : pc > szUsable - 4
        · rw [if_pos h415] at heq
          exact absurd heq (by simp)
        · rw [if_neg h415] at heq
          by_cases hc417 : pc + scrubDefragInt16 a (pc + 2) > szUsable
          · rw [if_pos hc417] at heq
            exact absurd heq (by simp)
          · rw [if_neg hc417] at heq
            by_cases hn4 : scrubDefragInt16 a (pc + 2) > 4
            · rw [if_pos hn4] at heq
              by_cases hguard :
                  scrubDefragInt16
                      (sdZeroRange a (pc + 4) (scrubDefragInt16 a (pc + 2) - 4))
                      pc < pc + 4 ∧
                    scrubDefragInt16
                      (sdZeroRange a (pc + 4) (scrubDefragInt16 a (pc + 2) - 4))
                      pc > 0
              · rw [if_pos hguard] at heq
                exact absurd heq (by simp)
              · rw [if_neg hguard] at heq
                have hrec := sdFreeBlocks_preserves szUsable x fuel _ _
                  (by omega) heq j hj
                rw [hrec, sdZeroRange_getD, if_neg (by omega)]
            · rw [if_neg hn4] at heq
              by_cases hguard : scrubDefragInt16 a pc < pc + 4 ∧
                  scrubDefragInt16 a pc > 0
              · rw [if_pos hguard] at heq
                exact absurd heq (by simp)
              · rw [if_neg hguard] at heq
                exact sdFreeBlocks_preserves szUsable x fuel _ _ (by omega)
                  heq j hj

theorem sdCellPayload_buf (p : SDState) (a : List Nat) (pc0 kind j : Nat)
    (hj : j < pc0) :
    ((scrubDefragCellPayload p a pc0 kind).2.1).getD j 0 = a.getD j 0 := by
  unfold scrubDefragCellPayload
  simp only []
  repeat' split
  all_goals
    first
      | rfl
      | exact sdWriteInt32_getD_outside _ _ _ _ (Or.inl (by omega))

theorem sdCellStep_buf (recurse : SDState → Nat → SDState)
    (nPfx szHdr kind : Nat) (p : SDState) (a : List Nat) (i x : Nat)
    (hpc : x ≤ scrubDefragInt16 a (nPfx + szHdr + i * 2)) (j : Nat)
    (hj : j < x) :
    ((scrubDefragCellStep recurse nPfx szHdr kind p a i).2.1).getD j 0 =
      a.getD j 0 := by
  unfold scrubDefragCellStep
  simp only []
  repeat' split
  all_goals
    first
      | rfl
      | exact sdWriteInt32_getD_outside _ _ _ _ (Or.inl (by omega))
      | exact sdCellPayload_buf _ _ _ _ j (by omega)
      | (rw [sdCellPayload_buf _ _ _ _ j (by omega)]
         exact sdWriteInt32_getD_outside _ _ _ _ (Or.inl (by omega)))

theorem sdMatch_triple (q : SDState × List Nat × Option Nat)
    (f : SDState → List Nat → SDState × List Nat × Option Nat) :
    (match q with
      | (p1, a1, some ln) => (p1, a1, some ln)
      | (p1, a1, none) => f p1 a1) =
    (match q.2.2 with
      | some ln => (q.1, q.2.1, some ln)
      | none => f q.1 q.2.1) := by
  rcases q with ⟨p1, a1, res⟩
  cases res <;> rfl

theorem sdCellLoop_preserves (recurse : SDState → Nat → SDState)
    (nPfx szHdr kind x : Nat) (aRef : List Nat) :
    ∀ (is : List Nat) (p : SDState) (acur : List Nat),
    (∀ i ∈ is, nPfx + szHdr + i * 2 + 1 < x) →
    (∀ i ∈ is, x ≤ scrubDefragInt16 aRef (nPfx + szHdr + i * 2)) →
    (∀ j, j < x → acur.getD j 0 = aRef.getD j 0) →
    ∀ j, j < x →
      ((scrubDefragCellLoop recurse nPfx szHdr kind is p acur).2.1).getD j 0 =
        aRef.getD j 0
  | [], p, acur, hidx, hptr, hagree, j, hj => hagree j hj
  | i :: rest, p, acur, hidx, hptr, hagree, j, hj => by
      have hidx' := hidx i (List.mem_cons_self i rest)
      have heq16 : scrubDefragInt16 acur (nPfx + szHdr + i * 2) =
          scrubDefragInt16 aRef (nPfx + szHdr + i * 2) := by
        unfold scrubDefragInt16
        rw [hagree _ (by omega), hagree _ (by omega)]
      have hpc : x ≤ scrubDefragInt16 acur (nPfx + szHdr + i * 2) := by
        rw [heq16]
        exact hptr i (List.mem_cons_self i rest)
      unfold scrubDefragCellLoop
      rw [sdMatch_triple]
      cases hres : (scrubDefragCellStep recurse nPfx szHdr kind p acur i).2.2
        with
      | some ln =>
          exact (sdCellStep_buf recurse nPfx szHdr kind p acur i x hpc j
            hj).trans (hagree j hj)
      | none =>
          exact sdCellLoop_preserves recurse nPfx szHdr kind x aRef rest _ _
            (fun i2 hi2 => hidx i2 (List.mem_cons_of_mem _ hi2))
            (fun i2 hi2 => hptr i2 (List.mem_cons_of_mem _ hi2))
            (fun j2 hj2 => (sdCellStep_buf recurse nPfx szHdr kind p acur i x
              hpc j2 hj2).trans (hagree j2 hj2))
            j hj

/-- The buffer actually handed to `scrubDefragWrite` by
`scrubDefragBtreeFinish`: the cell-walked buffer, with the right-most child
pointer at `nPfx + 8` rewritten first on interior pages (lines 468-473). -/
def scrubDefragFinishBuf (p1 : SDState) (a3 : List Nat) (nPfx kind : Nat) :
    List Nat :=
  if kind = 5 ∨ kind = 2 then
    scrubDefragWriteInt32 a3 (nPfx + 8) (scrubDefragIncDestPageNo p1).iDestPageNo
  else a3

theorem sdBtreeFinish_logData (recurse : SDState → Nat → SDState)
    (p1 : SDState) (a3 : List Nat) (pgno nPfx kind : Nat) (bRoot : Bool)
    (iCur : Nat)
    (h : (scrubDefragBtreeFinish recurse p1 a3 pgno nPfx kind bRoot iCur).rcErr
      = 0) :
    ∃ rest,
      (scrubDefragBtreeFinish recurse p1 a3 pgno nPfx kind bRoot iCur).destLog =
        (iCur, scrubDefragFinishBuf p1 a3 nPfx kind) :: rest := by
  have hbuf : scrubDefragFinishBuf p1 a3 nPfx kind =
      ((if kind = 5 ∨ kind = 2 then
          (recurse (scrubDefragIncDestPageNo p1)
            (scrubDefragInt32 a3 (nPfx + 8)),
           scrubDefragWriteInt32 a3 (nPfx + 8)
             (scrubDefragIncDestPageNo p1).iDestPageNo)
        else (p1, a3)) : SDState × List Nat).2 := by
    by_cases hk : kind = 5 ∨ kind = 2 <;>
      simp [scrubDefragFinishBuf, hk]
  unfold scrubDefragBtreeFinish at h ⊢
  simp only [] at h ⊢
  rw [hbuf]
  exact ⟨_, sdFinishTail _ _ _ _ h⟩

theorem sdFinishBuf_getD (p1 : SDState) (a3 : List Nat) (nPfx kind j : Nat)
    (hj : nPfx + 12 ≤ j) :
    (scrubDefragFinishBuf p1 a3 nPfx kind).getD j 0 = a3.getD j 0 := by
  unfold scrubDefragFinishBuf
  split
  · exact sdWriteInt32_getD_outside _ _ _ _ (Or.inr (by omega))
  · rfl

theorem sdBtreePage_gapZero (recurse : SDState → Nat → SDState) (p : SDState)
    (a : List Nat) (pgno : Nat) (bRoot : Bool)
    (nPfx kind szHdr nCell x y : Nat)
    (hnPfx : nPfx = if pgno = 1 then 100 else 0)
    (hkind : kind = a.getD nPfx 0)
    (hszHdr : szHdr = 8 + 4 * (if kind = 2 ∨ kind = 5 then 1 else 0))
    (hnCell : nCell = scrubDefragInt16 a (nPfx + 3))
    (hx : x = scrubDefragInt16 a (nPfx + 5))
    (hy : y = szHdr + nPfx + nCell * 2)
    (hcells : ∀ i, i < nCell → x ≤ scrubDefragInt16 a (nPfx + szHdr + i * 2))
    (hok : (scrubDefragBtreePage recurse p a pgno bRoot).rcErr = 0) :
    ∃ buf rest, (scrubDefragBtreePage recurse p a pgno bRoot).destLog =
      (p.iDestPageNo, buf) :: rest ∧
      ∀ j, y ≤ j → j < x → buf.getD j 0 = 0 := by
  unfold scrubDefragBtreePage at hok
  simp only [] at hok
  rw [← hnPfx, ← hkind, ← hszHdr, ← hnCell, ← hx, ← hy] at hok
  split at hok
  · exact absurd hok (sdBtreeCorrupt_rcErr_ne_zero _ _ _ _)
  rename_i h406
  split at hok
  · exact absurd hok (sdBtreeCorrupt_rcErr_ne_zero _ _ _ _)
  rename_i h408
  split at hok
  · exact absurd hok (sdBtreeCorrupt_rcErr_ne_zero _ _ _ _)
  rename_i h413
  split at hok
  · exact absurd hok (sdBtreeCorrupt_rcErr_ne_zero _ _ _ _)
  rename_i a2 hfb
  split at hok
  · exact absurd hok (sdBtreeCorrupt_rcErr_ne_zero _ _ _ _)
  rename_i p1 a3 hcl
  have hq : scrubDefragBtreePage recurse p a pgno bRoot =
      scrubDefragBtreeFinish recurse p1 a3 pgno nPfx kind bRoot
        p.iDestPageNo := by
    unfold scrubDefragBtreePage
    simp only []
    rw [← hnPfx, ← hkind, ← hszHdr, ← hnCell, ← hx, ← hy]
    rw [if_neg h406, if_neg h408, if_neg h413]
    split
    · rename_i ln heq'
      rw [hfb] at heq'
      exact absurd heq' (by simp)
    · rename_i a2' heq'
      rw [hfb] at heq'
      have ha2 : a2' = a2 := (Except.ok.inj heq').symm
      subst ha2
      split
      · rename_i p1' a3' ln heq2'
        rw [hcl] at heq2'
        exact absurd heq2' (by simp)
      · rename_i p1' a3' heq2'
        rw [hcl] at heq2'
        rw [Prod.mk.injEq, Prod.mk.injEq] at heq2'
        rw [← heq2'.1, ← heq2'.2.1]
  rw [hq]
  obtain ⟨rest, hlog⟩ :=
    sdBtreeFinish_logData recurse p1 a3 pgno nPfx kind bRoot p.iDestPageNo hok
  refine ⟨_, rest, hlog, ?_⟩
  intro j hjy hjx
  have hyx : y ≤ x := by omega
  have hpcf : scrubDefragInt16 (scrubDefragGapZero a y x) (nPfx + 1) = 0 ∨
      x ≤ scrubDefragInt16 (scrubDefragGapZero a y x) (nPfx + 1) := by omega
  have hpres2 : ∀ j2, j2 < x →
      a2.getD j2 0 = (scrubDefragGapZero a y x).getD j2 0 := fun j2 hj2 =>
    sdFreeBlocks_preserves p.szUsable x (p.szUsable + 1) _ _ hpcf hfb j2 hj2
  have hInt16 : ∀ off, off + 1 < y →
      scrubDefragInt16 a2 off = scrubDefragInt16 a off := by
    intro off hoff
    unfold scrubDefragInt16
    rw [hpres2 off (by omega), hpres2 (off + 1) (by omega),
      sdGapZero_getD_lt a y x off (by omega),
      sdGapZero_getD_lt a y x (off + 1) (by omega)]
  have hB := sdCellLoop_preserves recurse nPfx szHdr kind x a2
    (List.range nCell) p a2
    (fun i hi => by
      have hi' := List.mem_range.mp hi
      omega)
    (fun i hi => by
      have hi' := List.mem_range.mp hi
      have h16 := hInt16 (nPfx + szHdr + i * 2) (by omega)
      rw [h16]
      exact hcells i hi')
    (fun j3 hj3 => rfl)
    j hjx
  rw [hcl] at hB
  have hB2 : a3.getD j 0 = a2.getD j 0 := hB
  have hA : (scrubDefragFinishBuf p1 a3 nPfx kind).getD j 0 = a3.getD j 0 := by
    unfold scrubDefragFinishBuf
    split
    · rename_i hk
      have hk2 : kind = 2 ∨ kind = 5 := by tauto
      have hsz12 : szHdr = 12 := by rw [hszHdr, if_pos hk2]
      exact sdWriteInt32_getD_outside _ _ _ _ (Or.inr (by omega))
    · rfl
  rw [hA, hB2, hpres2 j hjx]
  exact sdGapZero_zero a y x j hjy hjx

/-- Claim C4 (amended): for every B-tree page rewritten on a clean run, with
header parameters `nPfx`, `kind`, `szHdr`, `nCell` and cell-content start
`x = cellStart` read as in lines 397-402, and with every cell pointer at or
beyond `x`, the page buffer written to the destination for this page is
zeroed exactly on `[nPfx + szHdr + 2*nCell, x)` - the upper bound is the RAW
`cellStart` offset of line 402, without `nPfx` added (lines 403-409:
`memset(&a[y], 0, x-y)` with `y = szHdr + nPrefix + nCell*2`).  On non-root
pages `nPfx = 0` and this coincides with the claim's range. -/
theorem scrubDefrag_c4_amended (fuel : Nat) (p : SDState) (pgno : Nat)
    (bRoot : Bool) (a : List Nat) (nPfx kind szHdr nCell x y : Nat)
    (ha : (if pgno = 1 then some p.page1 else p.src pgno) = some a)
    (hnPfx : nPfx = if pgno = 1 then 100 else 0)
    (hkind : kind = a.getD nPfx 0)
    (hszHdr : szHdr = 8 + 4 * (if kind = 2 ∨ kind = 5 then 1 else 0))
    (hnCell : nCell = scrubDefragInt16 a (nPfx + 3))
    (hx : x = scrubDefragInt16 a (nPfx + 5))
    (hy : y = szHdr + nPfx + nCell * 2)
    (hcells : ∀ i, i < nCell → x ≤ scrubDefragInt16 a (nPfx + szHdr + i * 2))
    (hok : (scrubDefragBtree (fuel + 1) p pgno 0 bRoot).rcErr = 0) :
    ∃ buf rest,
      (scrubDefragBtree (fuel + 1) p pgno 0 bRoot).destLog =
        (p.iDestPageNo, buf) :: rest ∧
      ∀ j, y ≤ j → j < x → buf.getD j 0 = 0 := by
  have h0 : p.rcErr = 0 := sdBtree_noclear _ _ _ _ _ hok
  have hbody : scrubDefragBtree (fuel + 1) p pgno 0 bRoot =
      (if p.rcErr ≠ 0 then p
       else if (0 : Nat) > 50 then
         scrubDefragErr p ("corrupt: b-tree too deep at page " ++ toString pgno)
       else
         match (if pgno = 1 then (some p.page1, p)
             else scrubDefragRead p pgno) with
         | (none, p1) => p1
         | (some a2, p1) =>
             scrubDefragBtreePage
               (fun q c => scrubDefragBtree fuel q c (0 + 1) false)
               p1 a2 pgno bRoot) := rfl
  have hpage : scrubDefragBtree (fuel + 1) p pgno 0 bRoot =
      scrubDefragBtreePage (fun q c => scrubDefragBtree fuel q c (0 + 1) false)
        p a pgno bRoot := by
    rw [hbody, if_neg (by simp [h0]), if_neg (by omega)]
    by_cases hp : pgno = 1
    · rw [if_pos hp] at ha ⊢
      rw [Option.some.inj ha]
    · rw [if_neg hp] at ha ⊢
      unfold scrubDefragRead
      rw [if_neg (by simp [h0]), ha]
  rw [hpage] at hok ⊢
  exact sdBtreePage_gapZero _ p a pgno bRoot nPfx kind szHdr nCell x y
    hnPfx hkind hszHdr hnCell hx hy hcells hok

/-- A 512-byte page 1 for the C4 counterexample: a leaf table page
(`kind = 0x0d` at offset 100) with one cell, `cellStart = 300` (bytes
105-106), no freelist, cell pointer 310 (bytes 108-109), a one-byte-payload
cell at 310, and a nonzero byte 9 at offset 350 - inside `[300, 400)`, the
part of the claim's range `[110, 100 + 300)` that lies beyond the raw
`cellStart`. -/
def sdC4Page1 : List Nat :=
  (((((((((List.replicate 512 0).set 100 13).set 104 1).set 105 1).set
    106 44).set 108 1).set 109 54).set 310 3).set 311 77).set 350 9

def sdC4S0 : SDState :=
  { rcErr := 0, zErr := "", szPage := 512, szUsable := 512, nDestPage := 5,
    iDestPageNo := 1, iLock := 1000000, src := fun _ => none,
    page1 := sdC4Page1, destLog := [] }

set_option maxRecDepth 100000 in
/-- Claim C4 is refuted on page 1: the claim's zeroed range
`[nPrefix + szHdr + 2*nCell, nPrefix + cellStart)` adds `nPrefix` to the
upper bound, but line 403 uses the raw `cellStart` (`x`).  Concretely, with
`nPrefix = 100`, `szHdr = 8`, `nCell = 1` and `cellStart = 300`, a clean run
writes page 1 with byte 350 equal to 9, although
`110 = nPrefix + szHdr + 2*nCell ≤ 350 < nPrefix + cellStart = 400`. -/
theorem scrubDefrag_c4_counterexample :
    (scrubDefragBtree 52 sdC4S0 1 0 true).rcErr = 0 ∧
    ((scrubDefragBtree 52 sdC4S0 1 0 true).destLog.headD (0, [])).1 =
      sdC4S0.iDestPageNo ∧
    sdC4Page1.getD 100 0 = 13 ∧
    scrubDefragInt16 sdC4Page1 103 = 1 ∧
    scrubDefragInt16 sdC4Page1 105 = 300 ∧
    100 + 8 + 2 * 1 ≤ 350 ∧ 350 < 100 + 300 ∧
    ((scrubDefragBtree 52 sdC4S0 1 0 true).destLog.headD (0, [])).2.getD 350 0
      = 9 := by
  decide

set_option maxRecDepth 100000 in
theorem scrubDefrag_c4_amended_witness :
    ∃ buf rest,
      (scrubDefragBtree (51 + 1) sdC4S0 1 0 true).destLog =
        (sdC4S0.iDestPageNo, buf) :: rest ∧
      ∀ j, 110 ≤ j → j < 300 → buf.getD j 0 = 0 :=
  scrubDefrag_c4_amended 51 sdC4S0 1 true sdC4Page1 100 13 8 1 300 110
    (by decide) (by decide) (by decide) (by decide) (by decide) (by decide)
    (by decide) (by decide) (by decide)
